import Mathlib

/-!
Videolecture landscape: tooltip text, landmark labels and viewport ranges.

A shallow embedding of `public/js/graphs/landscapeConstruct.js` (the objects `tooltipClass`
and `landmarkClass`) and of `public/js/graphs/landscapeGraph.js` (the ranges and radii of
`redraw`, its landmark passes, and the control flow of `setData`, `drawLandscape`,
`prepareLandscapeDisplay` and the resize handler), followed by the properties proved
about them.

Conventions of the embedding:
* a JavaScript string is a `String`; where the code counts or indexes a string, it is the
  list of its UTF-16 code units;
* whole numbers (view counts, tag weights, pixel positions of label boxes) are `Nat` or
  `Int` with exact arithmetic; seconds are rounded by `parseInt` to a number value first;
  container sizes and radii are rationals;
* an optional field of a point is an `Option`; a field that is required by the input
  contract is a plain value;
* `Math.random()` is an explicit argument: the value of `Math.floor(3 * Math.random())`.
-/

set_option autoImplicit false

/-- One lecture record, with the fields listed in the point input contract. -/
structure Point where
  slug : String := ""
  title : String := ""
  author : Option (List String) := none
  organization : Option String := none
  description : Option String := none
  language : String := "en"
  categories : Option (List String) := none
  published : String := ""
  duration : Nat := 0
  views : Nat := 0
  x : ℚ := 0
  y : ℚ := 0
  landmarkTags : Option (List (String × Int)) := none

/-! ## tooltipClass -/

namespace tooltipClass

/-- The date of the database in use. -/
def databaseDate : String := "24.07.2016"

/-- The exponent of the double nearest to a whole number `n` above `2 ^ 53`: the least `e`,
searched upwards from the given one, at which `n / 2 ^ e` fits into 53 bits. -/
def doubleExponent (n : Nat) : Nat → Nat → Nat
  | 0, e => e
  | fuel + 1, e => if n / 2 ^ e < 2 ^ 53 then e else doubleExponent n fuel (e + 1)

/-- The call `parseInt(duration)` on the whole number that the argument writes in decimal
(a numeric string, or a number below `10 ^ 21`): the number value nearest to it, which is the
whole number itself up to `2 ^ 53` and beyond that the nearest multiple of `2 ^ e` with a
53-bit factor, a tie going to the even factor. -/
def parseInt (n : Nat) : Nat :=
  if n ≤ 2 ^ 53 then n
  else
    let e := doubleExponent n n 0
    let m := n / 2 ^ e
    let r := n % 2 ^ e
    let half := 2 ^ (e - 1)
    if half < r ∨ (r = half ∧ m % 2 = 1) then (m + 1) * 2 ^ e else m * 2 ^ e

/-- The function `getTime` on the whole number written by its argument. `hours / 10 < 1` is
written with the whole-number quotient, which is below 1 exactly when the real quotient is.
The divisions, products and differences are those of whole numbers, which the number
arithmetic of the function agrees with as long as `seconds` is at most `2 ^ 53`; for
larger values the function rounds each result and this definition does not follow it. -/
def getTime (duration : Nat) : String :=
  let time := ""
  let seconds := parseInt duration
  let hours := seconds / 3600
  let time := if hours / 10 < 1 then time ++ ("0" ++ toString hours ++ ":")
              else time ++ (toString hours ++ ":")
  let seconds := seconds - 3600 * hours
  let minutes := seconds / 60
  let time := if minutes / 10 < 1 then time ++ ("0" ++ toString minutes ++ ":")
              else time ++ (toString minutes ++ ":")
  let seconds := seconds - 60 * minutes
  let time := if seconds / 10 < 1 then time ++ ("0" ++ toString seconds)
              else time ++ toString seconds
  time

/-- The UTF-16 code units of a character: one unit below U+10000 and a surrogate pair from
there on. -/
def charUnits (c : Char) : List Nat :=
  if c.toNat < 65536 then [c.toNat]
  else [55296 + (c.toNat - 65536) / 1024, 56320 + (c.toNat - 65536) % 1024]

/-- The UTF-16 code units of a text: the sequence that `length`, `indexOf` and `substr`
count and index. -/
def codeUnits (s : String) : List Nat :=
  s.data.flatMap charUnits

/-- The characters written by a sequence of code units: a surrogate pair writes one
character, a unit that stands alone as a surrogate writes U+FFFD. -/
def unitsLoop : List Nat → List Char
  | [] => []
  | [u] => [if 55296 ≤ u ∧ u < 57344 then Char.ofNat 65533 else Char.ofNat u]
  | hi :: lo :: rest =>
    if 55296 ≤ hi ∧ hi < 56320 ∧ 56320 ≤ lo ∧ lo < 57344 then
      Char.ofNat (65536 + (hi - 55296) * 1024 + (lo - 56320)) :: unitsLoop rest
    else
      (if 55296 ≤ hi ∧ hi < 57344 then Char.ofNat 65533 else Char.ofNat hi) ::
        unitsLoop (lo :: rest)

/-- The text written by a sequence of code units. -/
def ofCodeUnits (units : List Nat) : String :=
  String.mk (unitsLoop units)

/-- The code unit of the full stop. -/
def dot : Nat := 46

/-- The search loop of `String.prototype.indexOf` over the code units of a string: the
first index `k` at or after `fromIndex` that holds `c`, or `-1`; `k` is the index of the head
of the remaining list. -/
def indexOfLoop (c : Nat) : List Nat → Nat → Nat → Int
  | [], _, _ => -1
  | x :: rest, k, fromIndex =>
    if fromIndex ≤ k ∧ x = c then (k : Int) else indexOfLoop c rest (k + 1) fromIndex

/-- The call `str.indexOf(c, fromIndex)` for a one-unit `c`. -/
def indexOf (str : List Nat) (c : Nat) (fromIndex : Nat) : Int :=
  indexOfLoop c str 0 fromIndex

/-- The call `str.substr(start, length)`. -/
def substr (str : List Nat) (start : Nat) (length : Int) : List Nat :=
  (str.drop start).take length.toNat

/-- The function `getDescription` on the code units of its argument. -/
def getDescription (str : List Nat) : List Nat :=
  let getDot := indexOf str dot 300
  let desc := if getDot != -1 then substr str 0 (getDot + 1) ++ [dot, dot, dot] else str
  desc

/-- The pieces of a list of characters between the occurrences of `sep`. -/
def splitLoop (sep : Char) : List Char → List (List Char)
  | [] => [[]]
  | x :: rest =>
    if x = sep then [] :: splitLoop sep rest
    else
      match splitLoop sep rest with
      | [] => [[x]]
      | piece :: pieces => (x :: piece) :: pieces

/-- The call `str.split(sep)` for a one-character separator. -/
def split (str : String) (sep : Char) : List String :=
  (splitLoop sep str.data).map String.mk

/-- The call `parts.join(sep)`. -/
def join (parts : List String) (sep : String) : String :=
  sep.intercalate parts

/-- The text a looked-up value contributes to a concatenation: a missing entry of the
language table concatenates as `undefined`. -/
def lookupText (value : Option String) : String :=
  match value with
  | some v => v
  | none => "undefined"

/-- The function `CreateText`. The table `formats.languages.abbrToFull` is injected. A field
tested for truthiness is present and, when it is a string, not empty. -/
def CreateText (abbrToFull : String → Option String) (data : Point) : String :=
  let title := data.title
  let author := match data.author with
    | some names => join names ", "
    | none => "not-found"
  let organization := match data.organization with
    | some org => if org ≠ "" then org else "not-found"
    | none => "not-found"
  let text := "<b>Lecture title:</b> " ++ title ++ "<br>"
  let text := text ++ ("<b>Presenter:</b> " ++ author ++ "<br>")
  let text := text ++ ("<b>Organization:</b> " ++ organization ++ "<br><br>")
  let text := match data.description with
    | some d =>
      if d ≠ "" then
        let description := ofCodeUnits (getDescription (codeUnits d))
        text ++ ("<b>Description: </b>" ++ description ++ "<br><br>")
      else text
    | none => text
  let language := lookupText (abbrToFull data.language)
  let text := text ++ ("The lecture is in " ++ language ++ ". ")
  let text := match data.categories with
    | some cats =>
      let num := cats.length = 1
      let categories := if num then "category" else "categories"
      let timeWas := if num then "was" else "were"
      text ++ ("The main " ++ categories ++ " of the lecture " ++
        timeWas ++ " <b>" ++ join (cats.drop 1) ", " ++ "</b>. ")
    | none => text
  let date := join ((split ((split data.published 'T').headD "") '-').reverse) "."
  let time := getTime data.duration
  let text := text ++ ("It was published in " ++ date ++ " and it's duration is " ++
    time ++ ". There have been <b>" ++ toString data.views ++
    "</b> views until " ++ databaseDate ++ ". ")
  text

/-- A time component written in decimal, with one leading zero below ten. -/
def twoDigits (n : Nat) : String :=
  if n < 10 then "0" ++ toString n else toString n

/-- A description of 150 characters outside the basic plane followed by `.tail`: it has
155 characters and 305 code units, with its only dot at unit index 300. -/
def astralDescription : String :=
  String.mk (List.replicate 150 (Char.ofNat 128512) ++ ['.', 't', 'a', 'i', 'l'])

end tooltipClass

/-! ## landmarkClass -/

namespace landmarkClass

/-- The maximal number of landmarks. -/
def numberOfLandmarks : Nat := 400

/-- The update of the own enumerable keys of `landmarks` by a name that is no property of an
empty array: `landmarks[key] += w` when the key is there and `landmarks[key] = w` when it is
not. The keys are kept in the order in which they were first written. -/
def addWeight : List (String × Int) → String → Int → List (String × Int)
  | [], key, w => [(key, w)]
  | (k, v) :: rest, key, w =>
    if k = key then (k, v + w) :: rest else (k, v) :: addWeight rest key w

/-- The array `landmarks` that `setText` uses as a dictionary: its `length`, which is a
property of every array and is not listed among its keys, and its own enumerable keys with
their values. -/
structure Landmarks where
  length : Nat
  entries : List (String × Int)

/-- The names that an array inherits: for these `landmarks[key]` is a function or an object
before any weight is written, so that `landmarks[key] != null` holds and `+=` writes a text.
The accumulation below does not follow the code on them. -/
def inheritedNames : List String :=
  ["constructor", "hasOwnProperty", "isPrototypeOf", "propertyIsEnumerable",
   "toLocaleString", "toString", "valueOf", "__proto__", "__defineGetter__",
   "__defineSetter__", "__lookupGetter__", "__lookupSetter__",
   "at", "concat", "copyWithin", "entries", "every", "fill", "filter", "find", "findIndex",
   "findLast", "findLastIndex", "flat", "flatMap", "forEach", "includes", "indexOf", "join",
   "keys", "lastIndexOf", "map", "pop", "push", "reduce", "reduceRight", "reverse", "shift",
   "slice", "some", "sort", "splice", "toReversed", "toSorted", "toSpliced", "unshift",
   "values", "with"]

/-- A category name is a plain key when an empty array has no property of that name: it is
neither `length` nor an inherited name. -/
def isPlainKey (name : String) : Bool :=
  decide (name ≠ "length") && decide (name ∉ inheritedNames)

/-- The statement `if (landmarks[key] != null) landmarks[key] += w; else landmarks[key] = w`
of `setText`. For the name `length` the test holds from the start and the sum becomes the new
length of the array, which throws a RangeError unless it is a whole number from 0 to
`2 ^ 32 - 1`; no key is written. Any other name is taken as the name of a key. -/
def addTag (landmarks : Landmarks) (key : String) (w : Int) : Except String Landmarks :=
  if key = "length" then
    if 0 ≤ (landmarks.length : Int) + w ∧ (landmarks.length : Int) + w < 2 ^ 32 then
      Except.ok { landmarks with length := ((landmarks.length : Int) + w).toNat }
    else Except.error "RangeError: Invalid array length"
  else Except.ok { landmarks with entries := addWeight landmarks.entries key w }

/-- The inner loop of `setText`, over the tags of one point. -/
def keyLoop (landmarks : Landmarks) : List (String × Int) → Except String Landmarks
  | [] => Except.ok landmarks
  | c :: rest =>
    match addTag landmarks c.1 c.2 with
    | Except.ok next => keyLoop next rest
    | Except.error e => Except.error e

/-- The outer loop of `setText`, over the points; a point without tags is skipped. -/
def matLoop (landmarks : Landmarks) : List Point → Except String Landmarks
  | [] => Except.ok landmarks
  | pt :: rest =>
    match pt.landmarkTags with
    | none => matLoop landmarks rest
    | some categories =>
      match keyLoop landmarks categories with
      | Except.ok next => matLoop next rest
      | Except.error e => Except.error e

/-- The keys and values that the tags of one point add when every name is a plain key. -/
def plainKeyLoop (landmarks : List (String × Int)) (categories : List (String × Int)) :
    List (String × Int) :=
  categories.foldl (fun lm c => addWeight lm c.1 c.2) landmarks

/-- The keys and values that the tags of all points add when every name is a plain key. -/
def plainMatLoop (landmarks : List (String × Int)) (points : List Point) :
    List (String × Int) :=
  points.foldl
    (fun lm pt =>
      match pt.landmarkTags with
      | none => lm
      | some categories => plainKeyLoop lm categories)
    landmarks

/-- The order of the comparator `function (a, b) { return b[1] - a[1]; }`: `a` may stand
before `b` when the comparator is not positive. -/
def byWeightDesc (a b : String × Int) : Prop := b.2 - a.2 ≤ 0

instance : DecidableRel byWeightDesc := fun a b => by
  unfold byWeightDesc; infer_instance

instance : IsTotal (String × Int) byWeightDesc :=
  ⟨fun a b => by unfold byWeightDesc; omega⟩

instance : IsTrans (String × Int) byWeightDesc :=
  ⟨fun a b c => by unfold byWeightDesc; omega⟩

/-- What a call of `setText` ends with: a returned value (`none` for `undefined`) or a
thrown error. -/
inductive Outcome where
  | returned (value : Option String)
  | thrown (error : String)
deriving DecidableEq

/-- The function `setText`; `diceRoll` is the value of `Math.floor(3 * Math.random())`.
Reading index 0 of an entry that is not there throws a TypeError. The sort keeps entries of
equal weight in their order; no property below depends on the order among equal weights. -/
def setText (points : List Point) (diceRoll : Fin 3) : Outcome :=
  match matLoop { length := 0, entries := [] } points with
  | Except.error e => Outcome.thrown e
  | Except.ok landmarks =>
    if landmarks.entries.length = 0 then Outcome.returned none
    else
      let ArrayOfCategories := landmarks.entries
      let sorted := ArrayOfCategories.insertionSort byWeightDesc
      let categories := sorted.take 3
      match categories[diceRoll.val]? with
      | some entry => Outcome.returned (some entry.1)
      | none => Outcome.thrown "TypeError: categories[diceRoll] is undefined"

/-- All (category, weight) pairs of all points, in order. -/
def allTags (points : List Point) : List (String × Int) :=
  points.flatMap (fun pt => pt.landmarkTags.getD [])

/-- The category names of all tags of all points. -/
def tagNames (points : List Point) : List String :=
  (allTags points).map Prod.fst

/-- The accumulated weight of a category: the sum of the weights of all pairs naming it. -/
def accumulatedWeight (points : List Point) (c : String) : Int :=
  (((allTags points).filter (fun t => decide (t.1 = c))).map Prod.snd).sum

/-- The sum of the weights stored under a key in a list of pairs. -/
def weightIn (lm : List (String × Int)) (c : String) : Int :=
  ((lm.filter (fun t => decide (t.1 = c))).map Prod.snd).sum

/-- Two points tagged `[["ai",5]]` and `[["ai",3],["bio",2]]`. -/
def aiBioPoints : List Point :=
  [{ landmarkTags := some [("ai", 5)] }, { landmarkTags := some [("ai", 3), ("bio", 2)] }]

/-- One point whose only tag names the category `ai`. -/
def singleCategoryPoints : List Point := [{ landmarkTags := some [("ai", 5)] }]

/-- Two points whose tags name five categories, which accumulate to math = 7, ai = 6,
art = 4, law = 3 and bio = 2. -/
def fiveCategoryPoints : List Point :=
  [{ landmarkTags := some [("ai", 5), ("bio", 2), ("law", 3)] },
   { landmarkTags := some [("math", 7), ("ai", 1), ("art", 4)] }]

/-- One point whose tags name the categories length, a, b and c. -/
def lengthPoints : List Point :=
  [{ landmarkTags := some [("length", 9), ("a", 1), ("b", 2), ("c", 3)] }]

/-- One point whose tags name the categories length, a and b. -/
def shortLengthPoints : List Point :=
  [{ landmarkTags := some [("length", 5), ("a", 1), ("b", 2)] }]

/-- The bounding box of a rendered label; its width and height are never negative. -/
structure Box where
  left : Int
  top : Int
  width : Nat
  height : Nat
deriving DecidableEq

/-- A rendered landmark label: its bounding box and the names in its class attribute. -/
structure Tag where
  box : Box
  cls : List String
deriving DecidableEq

/-- The call `getBoundingClientRect()`. -/
def Tag.getBoundingClientRect (t : Tag) : Box := t.box

/-- A label is hidden when its class attribute holds the name `hidden`. -/
def Tag.isHidden (t : Tag) : Bool := decide ("hidden" ∈ t.cls)

/-- The update of the class attribute to its old value followed by ` hidden`. -/
def Tag.addHidden (t : Tag) : Tag := { t with cls := t.cls ++ ["hidden"] }

/-- The additional border of a cluster. -/
def addBorder : Int := 10

/-- The test of `landmarksVisibility` that two bounding boxes cover each other. -/
def coverEachOther (currentBox visibleBox : Box) : Bool :=
  decide (|currentBox.left - visibleBox.left| - addBorder
            ≤ max (currentBox.width : Int) (visibleBox.width : Int)) &&
  decide (|currentBox.top - visibleBox.top| - addBorder
            ≤ max (currentBox.height : Int) (visibleBox.height : Int))

/-- The inner loop of `landmarksVisibility` over `visibles`, left at the first hit. -/
def visiblesLoop (currentClust : Tag) (currentBox : Box) : List Tag → Tag
  | [] => currentClust
  | v :: rest =>
    let visibleBox := v.getBoundingClientRect
    if coverEachOther currentBox visibleBox then currentClust.addHidden
    else visiblesLoop currentClust currentBox rest

/-- The outer loop of `landmarksVisibility`: the labels still to visit, the list `visibles`
and the labels already visited, in their new state. The push onto `visibles` follows the
inner loop and is reached on every pass. -/
def clustLoop : List Tag → List Tag → List Tag → List Tag
  | [], _, done => done
  | currentClust :: rest, visibles, done =>
    let currentBox := currentClust.getBoundingClientRect
    let currentClust := visiblesLoop currentClust currentBox visibles
    clustLoop rest (visibles ++ [currentClust]) (done ++ [currentClust])

/-- The function `landmarksVisibility`: the labels in their state after the call. -/
def landmarksVisibility (_tags : List Tag) : List Tag :=
  clustLoop _tags [] []

/-- The overlap of two boxes in the words of the specification: the horizontal gap minus
10 is at most the larger width and the vertical gap minus 10 is at most the larger height. -/
def specOverlap (a b : Box) : Prop :=
  |a.left - b.left| - 10 ≤ max (a.width : Int) (b.width : Int) ∧
  |a.top - b.top| - 10 ≤ max (a.height : Int) (b.height : Int)

instance (a b : Box) : Decidable (specOverlap a b) := by
  unfold specOverlap; infer_instance

/-- The loop of the greedy filter of the specification: a candidate that overlaps a kept
label is hidden and not kept, any other candidate is kept. -/
def greedyLoop : List Tag → List Tag → List Tag → List Tag
  | [], _, done => done
  | candidate :: rest, kept, done =>
    if kept.any (fun k => decide (specOverlap candidate.box k.box)) then
      greedyLoop rest kept (done ++ [candidate.addHidden])
    else
      greedyLoop rest (kept ++ [candidate]) (done ++ [candidate])

/-- The greedy filter of the specification, started with an empty kept list. -/
def greedyFilter (tags : List Tag) : List Tag := greedyLoop tags [] []

/-- Three labels in a row: the second overlaps the first and the third, which do not
overlap each other. -/
def chainTags : List Tag :=
  [⟨⟨0, 0, 50, 10⟩, ["landmark"]⟩, ⟨⟨60, 0, 50, 10⟩, ["landmark"]⟩,
   ⟨⟨120, 0, 50, 10⟩, ["landmark"]⟩]

/-- Two labels at the same position. -/
def pairTags : List Tag :=
  [⟨⟨0, 0, 40, 12⟩, ["landmark"]⟩, ⟨⟨0, 0, 40, 12⟩, ["landmark"]⟩]

end landmarkClass

/-! ## landscapeGraph -/

namespace landscapeGraph

/-- Modelled from the spec: d3.scale.linear is an external library; a scale with domain
[d0, d1] and range [r0, r1] is the linear map of the domain onto the range, not clamped. -/
def linearScale (d0 d1 r0 r1 x : ℚ) : ℚ :=
  r0 + (r1 - r0) * (x - d0) / (d1 - d0)

/-- The maximum number of views of `redraw`; view counts are never negative, so the
maximum of a non-empty point set is the running maximum started at 0. -/
def maxView (points : List Point) : Nat :=
  (points.map (fun pt => pt.views)).foldl max 0

/-- The scale `rScale` of `redraw`, with domain `[0, maxView]` and range `[2.5, 10]`. -/
def rScale (points : List Point) (v : ℚ) : ℚ :=
  linearScale 0 (maxView points) (5 / 2) 10 v

/-- The radius a point is drawn with, `rScale(d.views + 1)`. -/
def pointRadius (points : List Point) (d : Point) : ℚ :=
  rScale points ((d.views : ℚ) + 1)

/-- The ranges of the x and y scales. -/
structure Ranges where
  minX : ℚ
  maxX : ℚ
  minY : ℚ
  maxY : ℚ

/-- The padding record of `redraw`. -/
structure Padding where
  left : ℚ
  right : ℚ
  top : ℚ
  bottom : ℚ

/-- The padding of the points, 30 pixels on each side. -/
def padding : Padding := { left := 30, right := 30, top := 30, bottom := 30 }

/-- The range computation of `redraw` from the inner width and height of the container and
the number of points. -/
def redrawRanges (width height : ℚ) (pointsLength : Nat) : Ranges :=
  let minXY := |width - height| / 2
  let maxXY := |width + height| / 2
  if pointsLength < 10 then
    if width ≤ height then
      { minX := width / 3 + padding.left
        maxX := 2 * width / 3 - padding.right
        minY := (3 * height - width) / 6 + padding.top
        maxY := (3 * height + width) / 6 - padding.bottom }
    else
      { minX := (3 * width - height) / 6 + padding.left
        maxX := (3 * width + height) / 6 - padding.right
        minY := height / 3 + padding.top
        maxY := 2 * height / 3 - padding.bottom }
  else
    if width ≤ height then
      { minX := 0 + padding.left
        maxX := width - padding.right
        minY := minXY + padding.top
        maxY := maxXY - padding.bottom }
    else
      { minX := minXY + padding.left
        maxX := maxXY - padding.right
        minY := 0 + padding.top
        maxY := height - padding.bottom }

/-- A data set of one point with one view. -/
def onePoint : List Point := [{ views := 1 }]

/-- A data set of two points with 3 and 9 views. -/
def twoPoints : List Point := [{ views := 3 }, { views := 9 }]

/-- A landmark: a normalised position at which a label is anchored. -/
structure Landmark where
  x : ℚ
  y : ℚ

/-- The options that the control flow of a graph reads: the container name and whether the
tooltip and landmark helpers are passed in. -/
structure Options where
  containerName : Option String := none
  tooltipClass : Bool := false
  landmarkClass : Bool := false

/-- The margin of the graph inside its container, 20 pixels on each side. -/
def margin : Padding := { left := 20, right := 20, top := 20, bottom := 20 }

/-- The functions of a graph whose runs are recorded. -/
inductive Call where
  | prepareLandscapeDisplay
  | updateLandscapeDisplay
  | redraw
deriving DecidableEq

/-- A rendered landmark label: its datum, its text and whether it was removed again. -/
structure Label where
  landmark : Landmark
  text : Option String
  removed : Bool

/-- A linear scale of d3: the ends of its domain and of its range. The upper end of a
domain is `none` when it is `-Infinity`, the maximum of no number at all. -/
structure Scale where
  domainMin : ℚ
  domainMax : Option ℚ
  rangeMin : ℚ
  rangeMax : ℚ

/-- The scale that `d3.scale.linear()` returns, with domain and range `[0, 1]`. -/
def Scale.linear : Scale :=
  { domainMin := 0, domainMax := some 1, rangeMin := 0, rangeMax := 1 }

/-- A scale applied to a number. -/
def Scale.apply (s : Scale) (v : ℚ) : ℚ :=
  match s.domainMax with
  | some d1 => linearScale s.domainMin d1 s.rangeMin s.rangeMax v
  | none => s.rangeMin

/-- A circle of class `point` on the surface: the point it is joined with and the position
and radius that its transition ends at. -/
structure PointCircle where
  datum : Point
  cx : ℚ
  cy : ℚ
  r : ℚ

/-- The variables of one `landscapeGraph` object: its options, the flags `active` and
`newData`, the two fields of `landscapeData`, the three scales (`none` for `null`), the
circles and the landmark labels on the surface, and a record of the functions entered so
far, oldest first. -/
structure State where
  options : Options
  active : Bool
  newData : Bool
  points : Option (List Point)
  landmarks : Option (List Landmark)
  xScale : Option Scale
  yScale : Option Scale
  rScale : Option Scale
  circles : List PointCircle
  labels : List Label
  calls : List Call

/-- The state of a freshly constructed graph. -/
def State.init (options : Options) : State :=
  { options := options, active := false, newData := false, points := none,
    landmarks := none, xScale := none, yScale := none, rScale := none, circles := [],
    labels := [], calls := [] }

/-- What the browser supplies to one operation: the size of the container, the pairs of
`Math.random()` values of the landmark seeds and the draw of `setText` for each label. -/
structure Env where
  totalWidth : ℚ
  totalHeight : ℚ
  random : Nat → ℚ × ℚ
  diceRoll : Nat → Fin 3

/-- The argument of `setData`. -/
structure Data where
  points : Option (List Point)

/-- The state after an operation and the error it threw, if any. -/
structure Run where
  graph : State
  thrown : Option String

/-- The test `Math.sqrt(Math.pow(dx, 2) + Math.pow(dy, 2)) < r` of `redraw` on the scaled
positions of a landmark and a point, for a positive `r` and over exact numbers: the root of
the sum of squares is below `r` exactly when the sum is below the square of `r`. -/
def pixelDistanceBelow (xScale yScale : ℚ → ℚ) (d : Landmark) (pt : Point) (r : ℚ) : Bool :=
  decide ((xScale d.x - xScale pt.x) ^ 2 + (yScale d.y - yScale pt.y) ^ 2 < r ^ 2)

/-- The list `closestPoints` of `redraw`: the points within `r` pixels of a landmark. -/
def closestPoints (xScale yScale : ℚ → ℚ) (points : List Point) (d : Landmark) (r : ℚ) :
    List Point :=
  points.filter (fun pt => pixelDistanceBelow xScale yScale d pt r)

/-- The check of the text callback on an entering landmark: no point within 20 pixels. -/
def firstPassRemoves (xScale yScale : ℚ → ℚ) (points : List Point) (d : Landmark) : Bool :=
  decide ((closestPoints xScale yScale points d 20).length = 0)

/-- The check of the second pass over the landmarks: no point within 25 pixels. -/
def secondPassRemoves (xScale yScale : ℚ → ℚ) (points : List Point) (d : Landmark) : Bool :=
  decide ((closestPoints xScale yScale points d 25).length = 0)

/-- The text callback of `redraw` run over the entering labels in order, the label at the
head having index `i`: a label without a close point is removed, any other label gets the
name chosen by `setText`; when `setText` throws the loop ends there with that error. -/
def textLoop (xScale yScale : ℚ → ℚ) (points : List Point) (diceRoll : Nat → Fin 3) :
    Nat → List Label → List Label × Option String
  | _, [] => ([], none)
  | i, node :: rest =>
    if firstPassRemoves xScale yScale points node.landmark then
      let next := textLoop xScale yScale points diceRoll (i + 1) rest
      ({ node with removed := true } :: next.1, next.2)
    else
      match landmarkClass.setText (closestPoints xScale yScale points node.landmark 20)
          (diceRoll i) with
      | landmarkClass.Outcome.returned value =>
        let next := textLoop xScale yScale points diceRoll (i + 1) rest
        ({ node with text := value } :: next.1, next.2)
      | landmarkClass.Outcome.thrown error => (node :: rest, some error)

/-- The second pass of `redraw` over the landmarks, which removes those with no point in
the vicinity. -/
def secondPass (xScale yScale : ℚ → ℚ) (points : List Point) (labels : List Label) :
    List Label :=
  labels.map (fun node =>
    if secondPassRemoves xScale yScale points node.landmark then { node with removed := true }
    else node)

/-- The landmarks `redraw` seeds for a new data set: one per point below 50 points, and
`numberOfLandmarks` random positions otherwise. -/
def seedLandmarks (points : List Point) (random : Nat → ℚ × ℚ) : List Landmark :=
  if points.length < 50 then points.map (fun pt => { x := pt.x, y := pt.y })
  else (List.range landmarkClass.numberOfLandmarks).map
    (fun n => { x := (random n).1, y := (random n).2 })

/-- The inner width of the container: its width without the left and right margin. -/
def innerWidth (env : Env) : ℚ :=
  env.totalWidth - margin.left - margin.right

/-- The inner height of the container: its height without the top and bottom margin. -/
def innerHeight (env : Env) : ℚ :=
  env.totalHeight - margin.top - margin.bottom

/-- The value of `Math.max.apply(null, views)` over the points: `-Infinity` for no point. -/
def maxViewOf (points : List Point) : Option ℚ :=
  if points.length = 0 then none else some (maxView points : ℚ)

/-- The landmark part of `redraw`, run with the scales just set: for a new data set the
landmarks are seeded and their labels entered, named and checked twice; at the end the flag
`newData` is cleared. The class attribute of the labels is left out. -/
def drawLandmarks (g : State) (xScale yScale : Scale) (points : List Point) (env : Env) :
    Run :=
  if g.options.landmarkClass then
    if g.newData then
      let g := { g with landmarks := some (seedLandmarks points env.random) }
      let entered := (seedLandmarks points env.random).map
        (fun d => ({ landmark := d, text := none, removed := false } : Label))
      match textLoop xScale.apply yScale.apply points env.diceRoll 0 entered with
      | (labels, some error) => { graph := { g with labels := labels }, thrown := some error }
      | (labels, none) =>
        { graph := { g with labels := secondPass xScale.apply yScale.apply points labels,
                            newData := false },
          thrown := none }
    else { graph := { g with newData := false }, thrown := none }
  else { graph := { g with newData := false }, thrown := none }

/-- The function `redraw`: it sets the domain and range of the x and y scales from the size
of the container and the number of points, builds the radius scale from the maximum number
of views, joins the circles with the points, each circle at the position and radius its
transition ends at, and then draws the landmarks. The zoom behaviour, which is reset to the
new scales, and the tooltip handlers of the circles are left out. -/
def redraw (g : State) (env : Env) : Run :=
  let g := { g with calls := g.calls ++ [Call.redraw] }
  let width := innerWidth env
  let height := innerHeight env
  match g.points with
  | none => { graph := g, thrown := some "TypeError: landscapeData.points is null" }
  | some points =>
    let ranges := redrawRanges width height points.length
    match g.xScale with
    | none => { graph := g, thrown := some "TypeError: xScale is null" }
    | some _ =>
      match g.yScale with
      | none => { graph := g, thrown := some "TypeError: yScale is null" }
      | some _ =>
        let xScale : Scale :=
          { domainMin := 0, domainMax := some 1, rangeMin := ranges.minX,
            rangeMax := ranges.maxX }
        let yScale : Scale :=
          { domainMin := 0, domainMax := some 1, rangeMin := ranges.minY,
            rangeMax := ranges.maxY }
        let rScale : Scale :=
          { domainMin := 0, domainMax := maxViewOf points, rangeMin := 5 / 2, rangeMax := 10 }
        let circles := points.map
          (fun d => ({ datum := d, cx := xScale.apply d.x, cy := yScale.apply d.y,
                       r := rScale.apply ((d.views : ℚ) + 1) } : PointCircle))
        drawLandmarks
          { g with xScale := some xScale, yScale := some yScale, rScale := some rScale,
                   circles := circles }
          xScale yScale points env

/-- The function `prepareLandscapeDisplay`: without a container name it throws, otherwise
it sets the flag `active`, removes a previous surface from the container and constructs the
surface, the zoom, the x and y scales and the tooltip container. -/
def prepareLandscapeDisplay (g : State) : Run :=
  let g := { g with calls := g.calls ++ [Call.prepareLandscapeDisplay] }
  match g.options.containerName with
  | none =>
    { graph := g,
      thrown := some "landscapeGraph: must set containerName before preparing the display!" }
  | some name =>
    if name = "" then
      { graph := g,
        thrown := some "landscapeGraph: must set containerName before preparing the display!" }
    else
      { graph := { g with active := true, circles := [], labels := [],
                          xScale := some Scale.linear, yScale := some Scale.linear },
        thrown := none }

/-- The function `updateLandscapeDisplay`, which resizes the surface only. -/
def updateLandscapeDisplay (g : State) : State :=
  { g with calls := g.calls ++ [Call.updateLandscapeDisplay] }

/-- The method `drawLandscape`. -/
def drawLandscape (g : State) (env : Env) : Run :=
  match g.points with
  | none => { graph := g, thrown := some "landscapeGraph.drawLandscape: points must be specified!" }
  | some _ =>
    if !g.active then
      let prepared := prepareLandscapeDisplay g
      match prepared.thrown with
      | some error => { graph := prepared.graph, thrown := some error }
      | none => redraw prepared.graph env
    else redraw g env

/-- The method `setData`. -/
def setData (g : State) (_data : Data) (env : Env) : Run :=
  match _data.points with
  | none =>
    { graph := g,
      thrown := some "landscapeGraph.setLandscapeData: must contain the points data!" }
  | some points => drawLandscape { g with points := some points, newData := true } env

/-- The resize handler together with the run of its timer: on an active graph the surface
is updated and redrawn, on an inactive graph nothing is scheduled. -/
def resize (g : State) (env : Env) : Run :=
  if g.active then redraw (updateLandscapeDisplay g) env
  else { graph := g, thrown := none }

/-- An operation on a graph: a call of `setData` or a resize of the window. -/
inductive Op where
  | setData (_data : Data) (env : Env)
  | resize (env : Env)

/-- An operation is a data assignment when it is a call of `setData` with points. -/
def Op.isAssignment : Op → Bool
  | Op.setData _data _ => _data.points.isSome
  | Op.resize _ => false

/-- One operation run on a graph. -/
def step (g : State) : Op → Run
  | Op.setData _data env => setData g _data env
  | Op.resize env => resize g env

/-- A sequence of operations run one after the other; an operation that throws leaves the
graph in the state it had reached. -/
def exec (g : State) (ops : List Op) : State :=
  ops.foldl (fun st op => (step st op).graph) g

/-- A graph is ready to be redrawn: it is active, its x and y scales are constructed and
points are stored. -/
def Ready (g : State) : Prop :=
  g.active = true ∧ g.xScale.isSome = true ∧ g.yScale.isSome = true ∧
    g.points.isSome = true

/-- A graph has been rescaled and re-joined for given points and a given container size:
the points are stored, the x and y scales map `[0, 1]` onto the ranges computed from the
inner size of the container and the number of points, the radius scale has the domain from 0
to the maximum number of views and the range `[2.5, 10]`, and the circles are the points in
order, each at its scaled position with the radius of its views plus one. -/
def Redrawn (g : State) (points : List Point) (env : Env) : Prop :=
  g.points = some points ∧
  g.xScale = some
    { domainMin := 0, domainMax := some 1,
      rangeMin := (redrawRanges (innerWidth env) (innerHeight env) points.length).minX,
      rangeMax := (redrawRanges (innerWidth env) (innerHeight env) points.length).maxX } ∧
  g.yScale = some
    { domainMin := 0, domainMax := some 1,
      rangeMin := (redrawRanges (innerWidth env) (innerHeight env) points.length).minY,
      rangeMax := (redrawRanges (innerWidth env) (innerHeight env) points.length).maxY } ∧
  g.rScale = some
    { domainMin := 0, domainMax := maxViewOf points, rangeMin := 5 / 2, rangeMax := 10 } ∧
  g.circles.map PointCircle.datum = points ∧
  g.circles = points.map (fun d =>
    { datum := d,
      cx := linearScale 0 1
        (redrawRanges (innerWidth env) (innerHeight env) points.length).minX
        (redrawRanges (innerWidth env) (innerHeight env) points.length).maxX d.x,
      cy := linearScale 0 1
        (redrawRanges (innerWidth env) (innerHeight env) points.length).minY
        (redrawRanges (innerWidth env) (innerHeight env) points.length).maxY d.y,
      r := pointRadius points d })

/-- The options of the page: the container and both helpers. -/
def pageOptions : Options :=
  { containerName := some "#landscape-graph-container", tooltipClass := true,
    landmarkClass := true }

/-- A container of 640 by 640 pixels, seeds at the origin and the first slot of each draw. -/
def squareEnv : Env :=
  { totalWidth := 640, totalHeight := 640, random := fun _ => (0, 0), diceRoll := fun _ => 0 }

/-- A point with three tag categories at a normalised position. -/
def taggedPoint (x y : ℚ) : Point :=
  { x := x, y := y, landmarkTags := some [("ai", 5), ("bio", 2), ("math", 1)] }

/-- A data set of 5 points. -/
def fivePoints : List Point :=
  [taggedPoint 0 0, taggedPoint 1 0, taggedPoint 0 1, taggedPoint 1 1,
   taggedPoint (1 / 2) (1 / 2)]

/-- A data set of 8 points. -/
def eightPoints : List Point :=
  fivePoints ++ [taggedPoint (1 / 4) (1 / 4), taggedPoint (3 / 4) (1 / 4),
    taggedPoint (1 / 4) (3 / 4)]

/-- A scale that maps the unit interval onto 100 pixels. -/
def pixelScale (v : ℚ) : ℚ := 100 * v

end landscapeGraph

open tooltipClass landmarkClass landscapeGraph

/-! ## The time formatter -/

/-- C1 fails as stated: for the whole number 9007199254740993 of seconds, one above 2 ^ 53,
parseInt yields 9007199254740992 and getTime ends in 32 seconds, where the claim has 33. -/
theorem getTime_rounds_above_two_pow_53 :
    getTime 9007199254740993 = "2501999792983:36:32" ∧
    ¬ (getTime 9007199254740993 =
        twoDigits (9007199254740993 / 3600) ++ ":" ++
          twoDigits (9007199254740993 % 3600 / 60) ++ ":" ++
          twoDigits (9007199254740993 % 60)) := by
  decide

/-- C1, amended: for every whole number of seconds up to 2 ^ 53, getTime returns hours,
minutes and seconds, each written with two digits at least and separated by colons, with
the hours not wrapped at 24. -/
theorem getTime_formats_hours_minutes_seconds (s : Nat) (hs : s ≤ 2 ^ 53) :
    getTime s =
      twoDigits (s / 3600) ++ ":" ++ twoDigits (s % 3600 / 60) ++ ":" ++ twoDigits (s % 60) ∧
    getTime 0 = "00:00:00" ∧ getTime 3661 = "01:01:01" ∧
    getTime 7200 = "02:00:00" ∧ getTime 90000 = "25:00:00" := by
  refine ⟨?_, by decide, by decide, by decide, by decide⟩
  have hp : parseInt s = s := by
    unfold parseInt
    rw [if_pos hs]
  have h1 : s - 3600 * (s / 3600) = s % 3600 := by omega
  have h2 : s % 3600 - 60 * (s % 3600 / 60) = s % 60 := by omega
  have e1 : (s / 3600 / 10 < 1) = (s / 3600 < 10) := by apply propext; omega
  have e2 : (s % 3600 / 60 / 10 < 1) = (s % 3600 / 60 < 10) := by apply propext; omega
  have e3 : (s % 60 / 10 < 1) = (s % 60 < 10) := by apply propext; omega
  simp only [getTime, twoDigits, hp, h1, h2, e1, e2, e3]
  split_ifs <;> simp [String.append_assoc]

theorem getTime_formats_hours_minutes_seconds_witness :
    3661 ≤ 2 ^ 53 ∧
    getTime 3661 =
      twoDigits (3661 / 3600) ++ ":" ++ twoDigits (3661 % 3600 / 60) ++ ":" ++
        twoDigits (3661 % 60) :=
  ⟨by decide, (getTime_formats_hours_minutes_seconds 3661 (by decide)).1⟩

/-! ## The landmark overlap filter -/

theorem visiblesLoop_eq (t : Tag) (b : Box) (vs : List Tag) :
    visiblesLoop t b vs = if vs.any (fun v => coverEachOther b v.box) then t.addHidden else t := by
  induction vs with
  | nil => simp [visiblesLoop]
  | cons v rest ih =>
    simp only [visiblesLoop, Tag.getBoundingClientRect, List.any_cons]
    by_cases h : coverEachOther b v.box = true
    · simp [h]
    · simp [h, ih]

theorem clustLoop_done (rest vis done : List Tag) :
    clustLoop rest vis done = done ++ clustLoop rest vis [] := by
  induction rest generalizing vis done with
  | nil => simp [clustLoop]
  | cons t rest ih =>
    simp only [clustLoop]
    rw [ih, ih _ ([] ++ _)]
    simp

theorem clustLoop_snoc (xs : List Tag) (t : Tag) (vis : List Tag) :
    clustLoop (xs ++ [t]) vis [] =
      clustLoop xs vis [] ++ [visiblesLoop t t.box (vis ++ clustLoop xs vis [])] := by
  induction xs generalizing vis with
  | nil => simp [clustLoop, Tag.getBoundingClientRect]
  | cons x xs ih =>
    simp only [List.cons_append, clustLoop, List.nil_append, List.append_eq]
    rw [clustLoop_done, ih, clustLoop_done xs _ [_]]
    simp [Tag.getBoundingClientRect]

theorem landmarksVisibility_snoc (xs : List Tag) (t : Tag) :
    landmarksVisibility (xs ++ [t]) =
      landmarksVisibility xs ++ [visiblesLoop t t.box (landmarksVisibility xs)] := by
  simpa [landmarksVisibility] using clustLoop_snoc xs t []

theorem landmarksVisibility_box (tags : List Tag) :
    (landmarksVisibility tags).map Tag.box = tags.map Tag.box := by
  induction tags using List.reverseRecOn with
  | nil => rfl
  | append_singleton xs t ih =>
    rw [landmarksVisibility_snoc, List.map_append, ih, visiblesLoop_eq]
    split_ifs <;> simp [Tag.addHidden]


theorem coverEachOther_iff (b c : Box) : coverEachOther b c = true ↔ specOverlap c b := by
  simp only [coverEachOther, addBorder, Bool.and_eq_true, decide_eq_true_eq, specOverlap]
  rw [abs_sub_comm, max_comm, abs_sub_comm b.top, max_comm (b.height : Int)]

theorem any_cover_iff (b : Box) (vs : List Tag) :
    vs.any (fun v => coverEachOther b v.box) = true ↔
      ∃ (i : Nat) (bx : Box), (vs.map Tag.box)[i]? = some bx ∧ specOverlap bx b := by
  constructor
  · intro h
    obtain ⟨v, hv, hc⟩ := List.any_eq_true.mp h
    obtain ⟨i, hi⟩ := List.getElem?_of_mem hv
    exact ⟨i, v.box, by simp [List.getElem?_map, hi], (coverEachOther_iff _ _).mp hc⟩
  · rintro ⟨i, bx, hb, ho⟩
    rw [List.getElem?_map] at hb
    obtain ⟨v, hv, rfl⟩ := Option.map_eq_some'.mp hb
    exact List.any_eq_true.mpr ⟨v, List.getElem?_mem hv, (coverEachOther_iff _ _).mpr ho⟩

theorem landmarksVisibility_length (tags : List Tag) :
    (landmarksVisibility tags).length = tags.length := by
  simpa using congrArg List.length (landmarksVisibility_box tags)

theorem isHidden_addHidden (t : Tag) : t.addHidden.isHidden = true := by
  simp [Tag.addHidden, Tag.isHidden]

theorem landmarksVisibility_getElem? (tags : List Tag)
    (hfresh : ∀ t ∈ tags, t.isHidden = false) (j : Nat) (tj : Tag) (hj : tags[j]? = some tj) :
    ∃ r, (landmarksVisibility tags)[j]? = some r ∧ r.box = tj.box ∧
      (r.isHidden = true ↔ ∃ (i : Nat) (ti : Tag), i < j ∧ tags[i]? = some ti ∧ specOverlap ti.box tj.box) := by
  induction tags using List.reverseRecOn generalizing j tj with
  | nil => simp at hj
  | append_singleton xs t ih =>
    have hlen := landmarksVisibility_length xs
    rw [landmarksVisibility_snoc]
    rcases Nat.lt_or_ge j xs.length with hlt | hge
    · rw [List.getElem?_append_left hlt] at hj
      obtain ⟨r, hr, hbox, hiff⟩ := ih (fun t ht => hfresh t (List.mem_append_left _ ht)) j tj hj
      refine ⟨r, ?_, hbox, ?_⟩
      · rw [List.getElem?_append_left (by omega)]; exact hr
      · rw [hiff]
        constructor
        · rintro ⟨i, ti, hi, hti, ho⟩
          exact ⟨i, ti, hi, by rw [List.getElem?_append_left (by omega)]; exact hti, ho⟩
        · rintro ⟨i, ti, hi, hti, ho⟩
          rw [List.getElem?_append_left (by omega)] at hti
          exact ⟨i, ti, hi, hti, ho⟩
    · have hjl : j < (xs ++ [t]).length := by
        by_contra hcon
        rw [List.getElem?_eq_none (by omega)] at hj
        exact Option.noConfusion hj
      have hjeq : j = xs.length := by simp at hjl; omega
      subst hjeq
      have htj : tj = t := by simpa using hj.symm
      subst htj
      have hth : tj.isHidden = false := hfresh tj (by simp)
      refine ⟨visiblesLoop tj tj.box (landmarksVisibility xs), ?_, ?_, ?_⟩
      · rw [← hlen]; simp
      · rw [visiblesLoop_eq]; split_ifs <;> simp [Tag.addHidden]
      · have hany := any_cover_iff tj.box (landmarksVisibility xs)
        rw [landmarksVisibility_box] at hany
        have hex : (∃ (i : Nat) (bx : Box), (xs.map Tag.box)[i]? = some bx ∧ specOverlap bx tj.box) ↔
            ∃ (i : Nat) (ti : Tag), i < xs.length ∧ (xs ++ [tj])[i]? = some ti ∧ specOverlap ti.box tj.box := by
          constructor
          · rintro ⟨i, bx, hb, ho⟩
            rw [List.getElem?_map] at hb
            obtain ⟨v, hv, rfl⟩ := Option.map_eq_some'.mp hb
            have hi : i < xs.length := (List.getElem?_eq_some.mp hv).1
            exact ⟨i, v, hi, by rw [List.getElem?_append_left hi]; exact hv, ho⟩
          · rintro ⟨i, ti, hi, hti, ho⟩
            rw [List.getElem?_append_left hi] at hti
            exact ⟨i, ti.box, by simp [List.getElem?_map, hti], ho⟩
        rw [visiblesLoop_eq, ← hex, ← hany]
        by_cases hc : (landmarksVisibility xs).any (fun v => coverEachOther tj.box v.box) = true
        · simp [hc, isHidden_addHidden]
        · simp [hc, hth]

/-- C2: on three labels in a row the code hides the third label, which overlaps only the
hidden second one, while the greedy filter of the specification keeps it. -/
theorem landmarksVisibility_compares_against_hidden_labels :
    (∀ t ∈ chainTags, t.isHidden = false) ∧
    (landmarksVisibility chainTags).map Tag.isHidden = [false, true, true] ∧
    (greedyFilter chainTags).map Tag.isHidden = [false, true, false] := by
  decide

/-- C3: with no label hidden beforehand, the label at position j ends up hidden exactly when
some label at an earlier position covers it. -/
theorem landmarksVisibility_hides_iff_earlier_covers (tags : List Tag)
    (hfresh : ∀ t ∈ tags, t.isHidden = false) :
    (landmarksVisibility tags).length = tags.length ∧
    (∀ (j : Nat) (tj : Tag), tags[j]? = some tj →
      ∃ r, (landmarksVisibility tags)[j]? = some r ∧ r.box = tj.box ∧
        (r.isHidden = true ↔
          ∃ (i : Nat) (ti : Tag), i < j ∧ tags[i]? = some ti ∧
            |ti.box.left - tj.box.left| - 10 ≤ max (ti.box.width : Int) (tj.box.width : Int) ∧
            |ti.box.top - tj.box.top| - 10 ≤ max (ti.box.height : Int) (tj.box.height : Int))) ∧
    (∀ r, (landmarksVisibility tags)[0]? = some r → r.isHidden = false) ∧
    (∀ (i j : Nat) (ti tj : Tag), i < j → tags[i]? = some ti → tags[j]? = some tj →
      ti.box.left = tj.box.left → ti.box.top = tj.box.top →
      ∃ r, (landmarksVisibility tags)[j]? = some r ∧ r.isHidden = true) ∧
    (∀ a b : Tag, tags = [a, b] →
      ¬ (|a.box.left - b.box.left| - 10 ≤ max (a.box.width : Int) (b.box.width : Int) ∧
         |a.box.top - b.box.top| - 10 ≤ max (a.box.height : Int) (b.box.height : Int)) →
      ∀ r ∈ landmarksVisibility tags, r.isHidden = false) := by
  have core := landmarksVisibility_getElem? tags hfresh
  refine ⟨landmarksVisibility_length tags, fun j tj hj => core j tj hj, ?_, ?_, ?_⟩
  · intro r hr
    have h0 : 0 < tags.length := by
      have := (List.getElem?_eq_some.mp hr).1
      rwa [landmarksVisibility_length] at this
    obtain ⟨r', hr', -, hiff⟩ := core 0 tags[0] (List.getElem?_eq_getElem h0)
    rw [hr] at hr'
    cases hr'
    cases hh : r.isHidden with
    | false => rfl
    | true =>
      obtain ⟨i, _, hi, _⟩ := hiff.mp hh
      exact absurd hi (Nat.not_lt_zero i)
  · intro i j ti tj hij hti htj hl ht
    obtain ⟨r, hr, -, hiff⟩ := core j tj htj
    refine ⟨r, hr, hiff.mpr ⟨i, ti, hij, hti, ?_, ?_⟩⟩
    · rw [hl, sub_self, abs_zero]
      have : (0 : Int) ≤ max (ti.box.width : Int) (tj.box.width : Int) :=
        le_max_of_le_left (Int.ofNat_nonneg _)
      omega
    · rw [ht, sub_self, abs_zero]
      have : (0 : Int) ≤ max (ti.box.height : Int) (tj.box.height : Int) :=
        le_max_of_le_left (Int.ofNat_nonneg _)
      omega
  · intro a b hab hno r hr
    obtain ⟨j, hj⟩ := List.getElem?_of_mem hr
    have hjlt : j < tags.length := by
      have := (List.getElem?_eq_some.mp hj).1
      rwa [landmarksVisibility_length] at this
    obtain ⟨r', hr', -, hiff⟩ := core j tags[j] (List.getElem?_eq_getElem hjlt)
    rw [hj] at hr'
    cases hr'
    cases hh : r.isHidden with
    | false => rfl
    | true =>
      exfalso
      obtain ⟨i, ti, hi, hti, ho⟩ := hiff.mp hh
      subst hab
      have hj1 : j = 1 := by simp at hjlt; omega
      subst hj1
      have hi0 : i = 0 := by omega
      subst hi0
      simp at hti
      subst hti
      exact hno ho

theorem landmarksVisibility_hides_iff_earlier_covers_witness :
    (∀ t ∈ pairTags, t.isHidden = false) ∧
    (landmarksVisibility pairTags).length = 2 ∧
    (∀ r, (landmarksVisibility pairTags)[0]? = some r → r.isHidden = false) ∧
    (landmarksVisibility pairTags).map Tag.isHidden = [false, true] :=
  ⟨by decide,
   (landmarksVisibility_hides_iff_earlier_covers pairTags (by decide)).1,
   (landmarksVisibility_hides_iff_earlier_covers pairTags (by decide)).2.2.1,
   by decide⟩

/-! ## The landmark namer -/

theorem weightIn_addWeight (lm : List (String × Int)) (key : String) (w : Int) (c : String) :
    weightIn (addWeight lm key w) c = weightIn lm c + (if key = c then w else 0) := by
  induction lm with
  | nil => by_cases h : key = c <;> simp [addWeight, weightIn, h]
  | cons kv rest ih =>
    obtain ⟨k, v⟩ := kv
    unfold weightIn at ih ⊢
    by_cases hk : k = key
    · subst hk
      by_cases hc : k = c
      · simp [addWeight, hc, List.filter_cons]; ring
      · simp [addWeight, hc, List.filter_cons]
    · by_cases hc : k = c
      · subst hc
        have hk' : ¬ key = k := fun h => hk h.symm
        simp [addWeight, hk, hk', List.filter_cons, ih]
      · simp [addWeight, hk, hc, List.filter_cons, ih]

theorem keys_addWeight (lm : List (String × Int)) (key : String) (w : Int) :
    (addWeight lm key w).map Prod.fst =
      if key ∈ lm.map Prod.fst then lm.map Prod.fst else lm.map Prod.fst ++ [key] := by
  induction lm with
  | nil => simp [addWeight]
  | cons kv rest ih =>
    obtain ⟨k, v⟩ := kv
    by_cases hk : k = key
    · subst hk; simp [addWeight]
    · have hk' : ¬ key = k := fun h => hk h.symm
      simp only [addWeight, hk, if_false, List.map_cons, ih, List.mem_cons, hk', false_or]
      split_ifs <;> simp

theorem nodup_keys_addWeight (lm : List (String × Int)) (key : String) (w : Int)
    (h : (lm.map Prod.fst).Nodup) : ((addWeight lm key w).map Prod.fst).Nodup := by
  rw [keys_addWeight]
  split_ifs with hm
  · exact h
  · exact List.Nodup.append h (List.nodup_singleton _) (by simpa using hm)

theorem mem_keys_addWeight (lm : List (String × Int)) (key : String) (w : Int) (c : String) :
    c ∈ (addWeight lm key w).map Prod.fst ↔ c ∈ lm.map Prod.fst ∨ c = key := by
  rw [keys_addWeight]
  split_ifs with hm
  · constructor
    · exact Or.inl
    · rintro (h | rfl)
      · exact h
      · exact hm
  · simp

theorem plainMatLoop_eq (lm : List (String × Int)) (points : List Point) :
    plainMatLoop lm points = plainKeyLoop lm (allTags points) := by
  induction points generalizing lm with
  | nil => rfl
  | cons pt rest ih =>
    simp only [plainMatLoop, List.foldl_cons] at ih ⊢
    rw [ih]
    cases hpt : pt.landmarkTags with
    | none => simp [allTags, hpt]
    | some cats => simp [allTags, hpt, plainKeyLoop, List.foldl_append]

theorem plainKeyLoop_spec (lm : List (String × Int)) (tags : List (String × Int))
    (h : (lm.map Prod.fst).Nodup) :
    ((plainKeyLoop lm tags).map Prod.fst).Nodup ∧
    (∀ c, c ∈ (plainKeyLoop lm tags).map Prod.fst ↔ c ∈ lm.map Prod.fst ∨ c ∈ tags.map Prod.fst) ∧
    (∀ c, weightIn (plainKeyLoop lm tags) c = weightIn lm c + weightIn tags c) := by
  induction tags generalizing lm with
  | nil => simp [plainKeyLoop, weightIn, h]
  | cons t rest ih =>
    obtain ⟨hn, hm, hw⟩ := ih (addWeight lm t.1 t.2) (nodup_keys_addWeight lm t.1 t.2 h)
    simp only [plainKeyLoop, List.foldl_cons] at hn hm hw ⊢
    refine ⟨hn, ?_, ?_⟩
    · intro c
      rw [hm c, mem_keys_addWeight]
      simp only [List.map_cons, List.mem_cons]
      tauto
    · intro c
      rw [hw c, weightIn_addWeight]
      by_cases hc : t.1 = c
      · simp [weightIn, List.filter_cons, hc]; ring
      · simp [weightIn, List.filter_cons, hc]

theorem weightIn_of_mem (lm : List (String × Int)) (h : (lm.map Prod.fst).Nodup)
    (e : String × Int) (he : e ∈ lm) : weightIn lm e.1 = e.2 := by
  induction lm with
  | nil => simp at he
  | cons kv rest ih =>
    simp only [List.map_cons, List.nodup_cons] at h
    rcases List.mem_cons.mp he with rfl | hr
    · have : rest.filter (fun t => decide (t.1 = e.1)) = [] := by
        rw [List.filter_eq_nil_iff]
        intro a ha hd
        exact h.1 (by
          have : a.1 = e.1 := by simpa using hd
          rw [← this]; exact List.mem_map_of_mem _ ha)
      simp [weightIn, List.filter_cons, this]
    · have hne : ¬ kv.1 = e.1 := fun hk => h.1 (by rw [hk]; exact List.mem_map_of_mem _ hr)
      have := ih h.2 hr
      simpa [weightIn, List.filter_cons, hne] using this

theorem sorted_filter_length (S : List (String × Int)) (hS : S.Sorted byWeightDesc)
    (i : Nat) (hi : i < S.length) :
    (S.filter (fun p => decide (S[i].2 < p.2))).length ≤ i := by
  have hsplit : S = S.take i ++ S.drop i := (List.take_append_drop i S).symm
  have hdrop : S.drop i = S[i] :: S.drop (i + 1) := List.drop_eq_getElem_cons hi
  have hpw : (S.drop i).Pairwise byWeightDesc := List.Pairwise.sublist (List.drop_sublist i S) hS
  rw [hdrop, List.pairwise_cons] at hpw
  have hnil : (S.drop i).filter (fun p => decide (S[i].2 < p.2)) = [] := by
    rw [List.filter_eq_nil_iff]
    intro a ha hd
    have hlt : S[i].2 < a.2 := by simpa using hd
    rw [hdrop] at ha
    rcases List.mem_cons.mp ha with rfl | hr
    · exact lt_irrefl _ hlt
    · have := hpw.1 a hr
      unfold byWeightDesc at this
      omega
  calc (S.filter (fun p => decide (S[i].2 < p.2))).length
      = ((S.take i ++ S.drop i).filter (fun p => decide (S[i].2 < p.2))).length := by rw [← hsplit]
    _ = ((S.take i).filter (fun p => decide (S[i].2 < p.2))).length := by
        rw [List.filter_append, hnil, List.append_nil]
    _ ≤ (S.take i).length := List.length_filter_le _ _
    _ ≤ i := by simp


theorem plainMatLoop_spec (points : List Point) :
    ((plainMatLoop [] points).map Prod.fst).Nodup ∧
    (∀ c, c ∈ (plainMatLoop [] points).map Prod.fst ↔ c ∈ tagNames points) ∧
    (∀ c, weightIn (plainMatLoop [] points) c = accumulatedWeight points c) := by
  obtain ⟨hn, hm, hw⟩ := plainKeyLoop_spec [] (allTags points) List.nodup_nil
  rw [plainMatLoop_eq]
  refine ⟨hn, ?_, ?_⟩
  · intro c
    rw [hm c]
    simp [tagNames]
  · intro c
    rw [hw c]
    simp [weightIn, accumulatedWeight]

theorem keys_perm_dedup (points : List Point) :
    ((plainMatLoop [] points).map Prod.fst).Perm (tagNames points).dedup := by
  obtain ⟨hn, hm, -⟩ := plainMatLoop_spec points
  exact (List.perm_ext_iff_of_nodup hn (List.nodup_dedup _)).mpr
    (fun c => by rw [hm c, List.mem_dedup])

theorem keyLoop_of_plain (landmarks : Landmarks) (tags : List (String × Int))
    (hplain : ∀ t ∈ tags, t.1 ≠ "length") :
    keyLoop landmarks tags =
      Except.ok { landmarks with entries := plainKeyLoop landmarks.entries tags } := by
  induction tags generalizing landmarks with
  | nil => rfl
  | cons t rest ih =>
    have ht : t.1 ≠ "length" := hplain t (List.mem_cons_self _ _)
    simp only [keyLoop, addTag, ht, if_false]
    rw [ih _ (fun u hu => hplain u (List.mem_cons_of_mem _ hu))]
    simp [plainKeyLoop]

theorem matLoop_of_plain (landmarks : Landmarks) (points : List Point)
    (hplain : ∀ c ∈ tagNames points, c ≠ "length") :
    matLoop landmarks points =
      Except.ok { landmarks with entries := plainMatLoop landmarks.entries points } := by
  induction points generalizing landmarks with
  | nil => rfl
  | cons pt rest ih =>
    have hrest : ∀ c ∈ tagNames rest, c ≠ "length" := by
      intro c hc
      apply hplain c
      simp only [tagNames, allTags, List.flatMap_cons, List.map_append, List.mem_append] at hc ⊢
      exact Or.inr hc
    cases hpt : pt.landmarkTags with
    | none =>
      simp only [matLoop, hpt]
      rw [ih _ hrest]
      simp [plainMatLoop, hpt]
    | some cats =>
      have hcats : ∀ t ∈ cats, t.1 ≠ "length" := by
        intro t ht
        apply hplain t.1
        simp only [tagNames, allTags, List.flatMap_cons, List.map_append, List.mem_append, hpt,
          Option.getD_some]
        exact Or.inl (List.mem_map_of_mem _ ht)
      simp only [matLoop, hpt]
      rw [keyLoop_of_plain _ _ hcats]
      simp only
      rw [ih _ hrest]
      simp [plainMatLoop, hpt]

theorem ne_length_of_isPlainKey (c : String) (h : isPlainKey c = true) : c ≠ "length" := by
  simp only [isPlainKey, Bool.and_eq_true, decide_eq_true_eq] at h
  exact h.1

/-- C5 fails as stated: with the categories length, a, b and c, the name length is no key of
the array, the third draw returns a, and three categories have a greater accumulated weight
than a; with the categories length, a and b only two entries remain and the third draw
throws. -/
theorem setText_drops_the_category_length :
    3 ≤ (tagNames lengthPoints).dedup.length ∧
    setText lengthPoints 2 = Outcome.returned (some "a") ∧
    ((tagNames lengthPoints).dedup.filter
      (fun c' => decide (accumulatedWeight lengthPoints "a"
        < accumulatedWeight lengthPoints c'))).length = 3 ∧
    3 ≤ (tagNames shortLengthPoints).dedup.length ∧
    setText shortLengthPoints 2 =
      Outcome.thrown "TypeError: categories[diceRoll] is undefined" ∧
    ¬ (∀ (points : List Point) (diceRoll : Fin 3), 3 ≤ (tagNames points).dedup.length →
        ∃ c, setText points diceRoll = Outcome.returned (some c) ∧ c ∈ tagNames points ∧
          ((tagNames points).dedup.filter
            (fun c' => decide (accumulatedWeight points c
              < accumulatedWeight points c'))).length ≤ 2) := by
  refine ⟨by decide, by decide, by decide, by decide, by decide, ?_⟩
  intro hclaim
  obtain ⟨c, hc, -, -⟩ := hclaim shortLengthPoints 2 (by decide)
  have hthrown : setText shortLengthPoints 2 =
      Outcome.thrown "TypeError: categories[diceRoll] is undefined" := by decide
  rw [hthrown] at hc
  exact Outcome.noConfusion hc

/-- C5, amended: with at least three distinct categories in the tags, all of them plain keys
(neither length nor a name that an array inherits), every draw returns a category that at
most two other categories strictly beat in accumulated weight. -/
theorem setText_returns_one_of_top_three (points : List Point) (diceRoll : Fin 3)
    (h3 : 3 ≤ (tagNames points).dedup.length)
    (hplain : ∀ c ∈ tagNames points, isPlainKey c = true) :
    (∃ c, setText points diceRoll = Outcome.returned (some c) ∧ c ∈ tagNames points ∧
      ((tagNames points).dedup.filter
        (fun c' => decide (accumulatedWeight points c < accumulatedWeight points c'))).length
        ≤ 2) ∧
    accumulatedWeight aiBioPoints "ai" = 8 ∧ accumulatedWeight aiBioPoints "bio" = 2 := by
  refine ⟨?_, by decide, by decide⟩
  have hmat : matLoop { length := 0, entries := [] } points =
      Except.ok { length := 0, entries := plainMatLoop [] points } :=
    matLoop_of_plain _ points (fun c hc => ne_length_of_isPlainKey c (hplain c hc))
  obtain ⟨hn, hm, hw⟩ := plainMatLoop_spec points
  have hperm := keys_perm_dedup points
  have hlen : 3 ≤ (plainMatLoop [] points).length := by
    have := hperm.length_eq
    simp only [List.length_map] at this
    omega
  have hSperm := List.perm_insertionSort byWeightDesc (plainMatLoop [] points)
  have hSsorted := List.sorted_insertionSort byWeightDesc (plainMatLoop [] points)
  have hSlen : 3 ≤ ((plainMatLoop [] points).insertionSort byWeightDesc).length := by
    rw [hSperm.length_eq]; exact hlen
  have hroll : diceRoll.val < ((plainMatLoop [] points).insertionSort byWeightDesc).length :=
    lt_of_lt_of_le diceRoll.isLt hSlen
  have hget : (((plainMatLoop [] points).insertionSort byWeightDesc).take 3)[diceRoll.val]? =
      some (((plainMatLoop [] points).insertionSort byWeightDesc)[diceRoll.val]) := by
    rw [List.getElem?_take_of_lt diceRoll.isLt, List.getElem?_eq_getElem hroll]
  have hmemS := List.getElem_mem hroll
  have hmemL : ((plainMatLoop [] points).insertionSort byWeightDesc)[diceRoll.val]
      ∈ plainMatLoop [] points :=
    hSperm.mem_iff.mp hmemS
  have hwc := weightIn_of_mem (plainMatLoop [] points) hn _ hmemL
  rw [hw] at hwc
  refine ⟨(((plainMatLoop [] points).insertionSort byWeightDesc)[diceRoll.val]).1, ?_, ?_, ?_⟩
  · have hne : ¬ (plainMatLoop [] points).length = 0 := by omega
    simp only [setText, hmat, hne, if_false, hget]
  · exact (hm _).mp (List.mem_map_of_mem _ hmemL)
  · rw [hwc, ← (hperm.filter _).length_eq, List.filter_map, List.length_map]
    have hcongr : (plainMatLoop [] points).filter
          ((fun c' => decide
              (((plainMatLoop [] points).insertionSort byWeightDesc)[diceRoll.val].2
                < accumulatedWeight points c')) ∘ Prod.fst) =
        (plainMatLoop [] points).filter
          (fun p => decide
              (((plainMatLoop [] points).insertionSort byWeightDesc)[diceRoll.val].2
                < p.2)) := by
      apply List.filter_congr
      intro e he
      have := weightIn_of_mem (plainMatLoop [] points) hn e he
      rw [hw] at this
      simp [this]
    rw [hcongr, ← (hSperm.filter _).length_eq]
    have := sorted_filter_length _ hSsorted diceRoll.val hroll
    have := diceRoll.isLt
    omega

theorem setText_returns_one_of_top_three_witness :
    5 ≤ (tagNames fiveCategoryPoints).dedup.length ∧
    (∀ c ∈ tagNames fiveCategoryPoints, isPlainKey c = true) ∧
    setText fiveCategoryPoints 2 = Outcome.returned (some "art") ∧
    ((tagNames fiveCategoryPoints).dedup.filter
      (fun c' => decide (accumulatedWeight fiveCategoryPoints "art"
        < accumulatedWeight fiveCategoryPoints c'))).length = 2 ∧
    ∃ c, setText fiveCategoryPoints 2 = Outcome.returned (some c) ∧
      c ∈ tagNames fiveCategoryPoints ∧
      ((tagNames fiveCategoryPoints).dedup.filter
        (fun c' => decide (accumulatedWeight fiveCategoryPoints c
          < accumulatedWeight fiveCategoryPoints c'))).length ≤ 2 :=
  ⟨by decide, by decide, by decide, by decide,
   (setText_returns_one_of_top_three fiveCategoryPoints 2 (by decide) (by decide)).1⟩

/-- C4: with a single category the draw still ranges over three slots, and slots 1 and 2 are
empty, so setText throws there. -/
theorem setText_single_category_throws :
    setText singleCategoryPoints 0 = Outcome.returned (some "ai") ∧
    setText singleCategoryPoints 1 = Outcome.thrown "TypeError: categories[diceRoll] is undefined" ∧
    setText singleCategoryPoints 2 = Outcome.thrown "TypeError: categories[diceRoll] is undefined" := by
  decide


/-! ## The description and the tooltip text -/

theorem indexOfLoop_none (c : Nat) (l : List Nat) (k fromIndex : Nat)
    (h : ∀ i : Nat, fromIndex ≤ k + i → l[i]? ≠ some c) :
    indexOfLoop c l k fromIndex = -1 := by
  induction l generalizing k with
  | nil => rfl
  | cons x rest ih =>
    have hx : ¬ (fromIndex ≤ k ∧ x = c) := by
      rintro ⟨hk, rfl⟩
      exact h 0 (by omega) (by simp)
    simp only [indexOfLoop, hx, if_false]
    apply ih
    intro i hi
    have := h (i + 1) (by omega)
    simpa using this

theorem indexOfLoop_first (c : Nat) (l : List Nat) (k fromIndex j : Nat)
    (hj : l[j]? = some c) (hfrom : fromIndex ≤ k + j)
    (hmin : ∀ i : Nat, i < j → fromIndex ≤ k + i → l[i]? ≠ some c) :
    indexOfLoop c l k fromIndex = ((k + j : Nat) : Int) := by
  induction l generalizing k j with
  | nil => simp at hj
  | cons x rest ih =>
    cases j with
    | zero =>
      have hx : x = c := by simpa using hj
      simp [indexOfLoop, hx]
      intro h; omega
    | succ j =>
      have hx : ¬ (fromIndex ≤ k ∧ x = c) := by
        rintro ⟨hk, rfl⟩
        exact hmin 0 (by omega) (by omega) (by simp)
      simp only [indexOfLoop, hx, if_false]
      rw [ih (k + 1) j (by simpa using hj) (by omega)]
      · congr 1; omega
      · intro i hi hi'
        have := hmin (i + 1) (by omega) (by omega)
        simpa using this

/-- C6: for every description, taken as the sequence of its code units, getDescription
passes it through when it has no dot at index 300 or later, in particular when it is shorter
than 300, and otherwise cuts it right after the first such dot and appends three dots. -/
theorem getDescription_truncates_at_first_dot_from_300 (s : List Nat) :
    ((∀ i : Nat, 300 ≤ i → s[i]? ≠ some dot) → getDescription s = s) ∧
    (s.length < 300 → getDescription s = s) ∧
    (∀ p : Nat, 300 ≤ p → s[p]? = some dot →
      (∀ i : Nat, 300 ≤ i → i < p → s[i]? ≠ some dot) →
      getDescription s = s.take (p + 1) ++ [dot, dot, dot] ∧
      (getDescription s).length = p + 4) := by
  have hnone : (∀ i : Nat, 300 ≤ i → s[i]? ≠ some dot) → getDescription s = s := by
    intro h
    have := indexOfLoop_none dot s 0 300 (fun i hi => h i (by omega))
    simp [getDescription, indexOf, this]
  refine ⟨hnone, ?_, ?_⟩
  · intro hlen
    apply hnone
    intro i hi
    rw [List.getElem?_eq_none (by omega)]
    simp
  · intro p hp hdot hmin
    have hidx := indexOfLoop_first dot s 0 300 p hdot (by omega)
      (fun i hi hi' => hmin i (by omega) hi)
    have hplen : p < s.length := (List.getElem?_eq_some.mp hdot).1
    have hne : ¬ (((0 + p : Nat) : Int) = -1) := by omega
    have heq : getDescription s = s.take (p + 1) ++ [dot, dot, dot] := by
      simp only [getDescription, indexOf, hidx, bne_iff_ne, ne_eq, hne, not_false_eq_true,
        if_true, substr, List.drop_zero]
      congr 2
      omega
    refine ⟨heq, ?_⟩
    rw [heq, List.length_append, List.length_take]
    simp
    omega

set_option maxRecDepth 20000 in
theorem getDescription_truncates_at_first_dot_from_300_witness :
    astralDescription.length = 155 ∧
    (codeUnits astralDescription)[300]? = some dot ∧
    getDescription (codeUnits astralDescription) =
      (codeUnits astralDescription).take 301 ++ [dot, dot, dot] ∧
    (getDescription (codeUnits astralDescription)).length = 304 :=
  ⟨by decide, by decide,
   (getDescription_truncates_at_first_dot_from_300 (codeUnits astralDescription)).2.2 300
     (le_refl _) (by decide) (fun i h1 h2 => absurd h2 (Nat.not_lt.mpr h1))⟩

theorem CreateText_around_categories (abbrToFull : String → Option String) (data : Point) :
    ∃ pre post : String,
      (∀ cs : List String,
        CreateText abbrToFull { data with categories := some cs } =
          pre ++ ("The main " ++ (if cs.length = 1 then "category" else "categories") ++
            " of the lecture " ++ (if cs.length = 1 then "was" else "were") ++
            " <b>" ++ ", ".intercalate cs.tail ++ "</b>. ") ++ post) ∧
      CreateText abbrToFull { data with categories := none } = pre ++ post := by
  apply Exists.intro
  apply Exists.intro
  apply And.intro
  case right =>
    simp only [CreateText]
    exact rfl
  case left =>
    intro cs
    simp only [CreateText, join, List.drop_one]

/-- C9: the categories sentence of CreateText lists the categories after the first one and
takes its singular or plural wording from the length of the whole list; without categories
the sentence is left out. -/
theorem CreateText_categories_sentence (abbrToFull : String → Option String) (data : Point) :
    ∃ pre post : String,
      (∀ cs : List String,
        CreateText abbrToFull { data with categories := some cs } =
          pre ++ ("The main " ++ (if cs.length = 1 then "category" else "categories") ++
            " of the lecture " ++ (if cs.length = 1 then "was" else "were") ++
            " <b>" ++ ", ".intercalate cs.tail ++ "</b>. ") ++ post) ∧
      (∀ c : String,
        CreateText abbrToFull { data with categories := some [c] } =
          pre ++ "The main category of the lecture was <b></b>. " ++ post) ∧
      (∀ c d : String,
        CreateText abbrToFull { data with categories := some [c, d] } =
          pre ++ ("The main categories of the lecture were <b>" ++ d ++ "</b>. ") ++ post) ∧
      CreateText abbrToFull { data with categories := none } = pre ++ post := by
  obtain ⟨pre, post, hsome, hnone⟩ := CreateText_around_categories abbrToFull data
  refine ⟨pre, post, hsome, ?_, ?_, hnone⟩
  · intro c
    rw [hsome [c]]
    rfl
  · intro c d
    rw [hsome [c, d]]
    have h1 : "The main " ++ "categories" ++ " of the lecture " ++ "were" ++ " <b>" =
        "The main categories of the lecture were <b>" := by decide
    simp [String.intercalate, String.intercalate.go, h1]

/-- C10: the presenter slot of CreateText holds the literal not-found for a point without an
author field and the authors joined with a comma and a blank otherwise. -/
theorem CreateText_presenter_slot (abbrToFull : String → Option String) (data : Point) :
    (∃ post : String,
      CreateText abbrToFull { data with author := none } =
        "<b>Lecture title:</b> " ++ data.title ++ "<br>" ++
          "<b>Presenter:</b> not-found<br>" ++ post) ∧
    (∀ names : List String, ∃ post : String,
      CreateText abbrToFull { data with author := some names } =
        "<b>Lecture title:</b> " ++ data.title ++ "<br>" ++
          ("<b>Presenter:</b> " ++ ", ".intercalate names ++ "<br>") ++ post) := by
  have key : ∀ (a : Option (List String)), ∃ post : String,
      CreateText abbrToFull { data with author := a } =
        "<b>Lecture title:</b> " ++ data.title ++ "<br>" ++
          ("<b>Presenter:</b> " ++
            (match a with
              | some names => ", ".intercalate names
              | none => "not-found") ++ "<br>") ++ post := by
    intro a
    have strip : ∀ (p s t : String), (∃ post, s = p ++ post) → ∃ post, s ++ t = p ++ post :=
      fun p s t ⟨q, h⟩ => ⟨q ++ t, by rw [h, String.append_assoc]⟩
    simp only [CreateText, join]
    apply strip
    split
    · apply strip
      apply strip
      split
      · split_ifs
        · apply strip
          exact ⟨_, rfl⟩
        · exact ⟨_, rfl⟩
      · exact ⟨_, rfl⟩
    · apply strip
      split
      · split_ifs
        · apply strip
          exact ⟨_, rfl⟩
        · exact ⟨_, rfl⟩
      · exact ⟨_, rfl⟩
  constructor
  · obtain ⟨post, h⟩ := key none
    exact ⟨post, h⟩
  · intro names
    exact key (some names)

/-! ## The viewport scaler -/

theorem views_le_maxView (points : List Point) (p : Point) (hp : p ∈ points) :
    p.views ≤ maxView points := by
  have gen : ∀ (l : List Nat) (a v : Nat), v ∈ l ∨ v ≤ a → v ≤ l.foldl max a := by
    intro l
    induction l with
    | nil => intro a v h; rcases h with h | h; simp at h; simpa using h
    | cons x rest ih =>
      intro a v h
      simp only [List.foldl_cons]
      apply ih
      rcases h with h | h
      · rcases List.mem_cons.mp h with rfl | h'
        · exact Or.inr (le_max_right _ _)
        · exact Or.inl h'
      · exact Or.inr (le_trans h (le_max_left _ _))
  exact gen _ 0 p.views (Or.inl (List.mem_map_of_mem _ hp))

/-- C7 fails as stated: the only point of a data set with one view is drawn with radius
17.5, which is above 10. -/
theorem pointRadius_exceeds_ten_at_maxView :
    ¬ ∀ (points : List Point) (p : Point), p ∈ points → 0 < maxView points →
      5 / 2 ≤ pointRadius points p ∧ pointRadius points p ≤ 10 := by
  intro h
  have h1 := (h onePoint { views := 1 } (by simp [onePoint]) (by decide)).2
  have h2 : pointRadius onePoint { views := 1 } = 35 / 2 := by
    simp [pointRadius, rScale, linearScale, maxView, onePoint]
    norm_num
  rw [h2] at h1
  norm_num at h1

/-- C7, amended: the radius of a point is 2.5 + 7.5 * (views + 1) / maxView, which is above
2.5 and at most 10 + 7.5 / maxView, and it is at most 10 exactly when views + 1 is at most
maxView. -/
theorem pointRadius_bounds (points : List Point) (p : Point) (hp : p ∈ points)
    (hmax : 0 < maxView points) :
    pointRadius points p = 5 / 2 + 15 / 2 * ((p.views : ℚ) + 1) / (maxView points : ℚ) ∧
    5 / 2 < pointRadius points p ∧
    pointRadius points p ≤ 10 + 15 / 2 / (maxView points : ℚ) ∧
    (pointRadius points p ≤ 10 ↔ p.views + 1 ≤ maxView points) := by
  have hle := views_le_maxView points p hp
  have hm : (0 : ℚ) < (maxView points : ℚ) := by exact_mod_cast hmax
  have hv : (0 : ℚ) ≤ (p.views : ℚ) := by exact_mod_cast Nat.zero_le _
  have hle' : (p.views : ℚ) ≤ (maxView points : ℚ) := by exact_mod_cast hle
  have heq : pointRadius points p = 5 / 2 + 15 / 2 * ((p.views : ℚ) + 1) / (maxView points : ℚ) := by
    simp only [pointRadius, rScale, linearScale]
    norm_num
  refine ⟨heq, ?_, ?_, ?_⟩
  · rw [heq]
    have : 0 < 15 / 2 * ((p.views : ℚ) + 1) / (maxView points : ℚ) := by positivity
    linarith
  · rw [heq]
    have hkey : 15 / 2 * ((p.views : ℚ) + 1) / (maxView points : ℚ) ≤
        15 / 2 + 15 / 2 / (maxView points : ℚ) := by
      rw [div_le_iff₀ hm]
      have hmul : (15 / 2 + 15 / 2 / (maxView points : ℚ)) * (maxView points : ℚ) =
          15 / 2 * (maxView points : ℚ) + 15 / 2 := by
        field_simp
        ring
      rw [hmul]
      linarith
    linarith
  · rw [heq]
    have hiff : 15 / 2 * ((p.views : ℚ) + 1) / (maxView points : ℚ) ≤ 15 / 2 ↔
        (p.views : ℚ) + 1 ≤ (maxView points : ℚ) := by
      rw [div_le_iff₀ hm]
      constructor <;> intro h <;> linarith
    constructor
    · intro h
      have h' : (p.views : ℚ) + 1 ≤ (maxView points : ℚ) := hiff.mp (by linarith)
      exact_mod_cast h'
    · intro h
      have h' : (p.views : ℚ) + 1 ≤ (maxView points : ℚ) := by exact_mod_cast h
      have := hiff.mpr h'
      linarith

theorem pointRadius_bounds_witness :
    ({ views := 3 } : Point) ∈ twoPoints ∧ 0 < maxView twoPoints ∧
    5 / 2 < pointRadius twoPoints { views := 3 } ∧
    (pointRadius twoPoints { views := 3 } ≤ 10 ↔ 3 + 1 ≤ maxView twoPoints) :=
  ⟨List.mem_cons_self _ _, by decide,
   (pointRadius_bounds twoPoints { views := 3 } (List.mem_cons_self _ _) (by decide)).2.1,
   (pointRadius_bounds twoPoints { views := 3 } (List.mem_cons_self _ _) (by decide)).2.2.2⟩

/-- C8: for a container of inner width w and height h, both not negative, the x and y ranges
of redraw span the same length L and are centred in the container, with L = min(w, h) - 60
for ten points or more and L = min(w, h) / 3 - 60 below ten points; for a square container
and ten points or more both ranges are [30, w - 30]. -/
theorem redrawRanges_square_centred (w h : ℚ) (n : Nat) (hw : 0 ≤ w) (hh : 0 ≤ h) :
    (redrawRanges w h n).maxX - (redrawRanges w h n).minX =
      (if 10 ≤ n then min w h - 60 else min w h / 3 - 60) ∧
    (redrawRanges w h n).maxY - (redrawRanges w h n).minY =
      (if 10 ≤ n then min w h - 60 else min w h / 3 - 60) ∧
    (redrawRanges w h n).minX + (redrawRanges w h n).maxX = w ∧
    (redrawRanges w h n).minY + (redrawRanges w h n).maxY = h ∧
    (w = h → 10 ≤ n →
      (redrawRanges w h n).minX = 30 ∧ (redrawRanges w h n).maxX = w - 30 ∧
      (redrawRanges w h n).minY = 30 ∧ (redrawRanges w h n).maxY = w - 30) := by
  have hsum : |w + h| = w + h := abs_of_nonneg (add_nonneg hw hh)
  by_cases hn : n < 10
  · have hn' : ¬ 10 ≤ n := by omega
    by_cases hwh : w ≤ h
    · have hmin : min w h = w := min_eq_left hwh
      simp only [redrawRanges, hn, hwh, hn', if_true, if_false, hmin, padding]
      refine ⟨by ring, by ring, by ring, by ring, ?_⟩
      intro _ h10; exact h10.elim
    · have hmin : min w h = h := min_eq_right (le_of_not_le hwh)
      simp only [redrawRanges, hn, hwh, hn', if_true, if_false, hmin, padding]
      refine ⟨by ring, by ring, by ring, by ring, ?_⟩
      intro _ h10; exact h10.elim
  · have hn' : 10 ≤ n := by omega
    by_cases hwh : w ≤ h
    · have hmin : min w h = w := min_eq_left hwh
      have hdiff : |w - h| = h - w := by rw [abs_sub_comm]; exact abs_of_nonneg (by linarith)
      simp only [redrawRanges, hn, hwh, hn', if_true, if_false, hmin, padding, hsum, hdiff]
      refine ⟨by ring, by ring, by ring, by ring, ?_⟩
      intro e _; subst e
      refine ⟨by norm_num, trivial, by norm_num, by ring⟩
    · have hmin : min w h = h := min_eq_right (le_of_not_le hwh)
      have hdiff : |w - h| = w - h := abs_of_nonneg (by linarith [le_of_not_le hwh])
      simp only [redrawRanges, hn, hwh, hn', if_true, if_false, hmin, padding, hsum, hdiff]
      refine ⟨by ring, by ring, by ring, by ring, ?_⟩
      intro e _; exact absurd (le_of_eq e) hwh

theorem redrawRanges_square_centred_witness :
    (0 : ℚ) ≤ 100 ∧
    (redrawRanges 100 100 12).minX = 30 ∧ (redrawRanges 100 100 12).maxX = 100 - 30 ∧
    (redrawRanges 100 100 12).minY = 30 ∧ (redrawRanges 100 100 12).maxY = 100 - 30 :=
  ⟨by norm_num,
   (redrawRanges_square_centred 100 100 12 (by norm_num) (by norm_num)).2.2.2.2 rfl
     (by decide)⟩

/-! ## The render orchestrator -/

theorem drawLandmarks_graph (g : State) (xScale yScale : Scale) (points : List Point)
    (env : Env) :
    (drawLandmarks g xScale yScale points env).graph.active = g.active ∧
    (drawLandmarks g xScale yScale points env).graph.options = g.options ∧
    (drawLandmarks g xScale yScale points env).graph.points = g.points ∧
    (drawLandmarks g xScale yScale points env).graph.calls = g.calls ∧
    (drawLandmarks g xScale yScale points env).graph.xScale = g.xScale ∧
    (drawLandmarks g xScale yScale points env).graph.yScale = g.yScale ∧
    (drawLandmarks g xScale yScale points env).graph.rScale = g.rScale ∧
    (drawLandmarks g xScale yScale points env).graph.circles = g.circles := by
  unfold drawLandmarks
  split
  · split
    · simp only
      split <;> simp
    · simp
  · simp

theorem circles_radius (points : List Point) (x0 x1 y0 y1 : ℚ) :
    points.map (fun d =>
      ({ datum := d,
         cx := Scale.apply
           { domainMin := 0, domainMax := some 1, rangeMin := x0, rangeMax := x1 } d.x,
         cy := Scale.apply
           { domainMin := 0, domainMax := some 1, rangeMin := y0, rangeMax := y1 } d.y,
         r := Scale.apply
           { domainMin := 0, domainMax := maxViewOf points, rangeMin := 5 / 2, rangeMax := 10 }
           ((d.views : ℚ) + 1) } : PointCircle)) =
    points.map (fun d =>
      ({ datum := d, cx := linearScale 0 1 x0 x1 d.x, cy := linearScale 0 1 y0 y1 d.y,
         r := pointRadius points d } : PointCircle)) := by
  apply List.map_congr_left
  intro d hd
  have hlen : ¬ points.length = 0 := by
    intro h
    rw [List.length_eq_zero] at h
    rw [h] at hd
    exact List.not_mem_nil d hd
  simp only [Scale.apply, maxViewOf, hlen, if_false, pointRadius, rScale]

theorem redraw_of_ready (g : State) (env : Env) (points : List Point)
    (hp : g.points = some points) (hx : g.xScale.isSome = true)
    (hy : g.yScale.isSome = true) :
    (redraw g env).graph.active = g.active ∧
    (redraw g env).graph.options = g.options ∧
    (redraw g env).graph.calls = g.calls ++ [Call.redraw] ∧
    Redrawn (redraw g env).graph points env := by
  obtain ⟨sx, hsx⟩ := Option.isSome_iff_exists.mp hx
  obtain ⟨sy, hsy⟩ := Option.isSome_iff_exists.mp hy
  unfold redraw
  simp only [hp, hsx, hsy]
  refine ⟨?_, ?_, ?_, ?_, ?_, ?_, ?_, ?_, ?_⟩
  · exact (drawLandmarks_graph _ _ _ _ _).1
  · exact (drawLandmarks_graph _ _ _ _ _).2.1
  · exact (drawLandmarks_graph _ _ _ _ _).2.2.2.1
  · exact (drawLandmarks_graph _ _ _ _ _).2.2.1
  · exact (drawLandmarks_graph _ _ _ _ _).2.2.2.2.1
  · exact (drawLandmarks_graph _ _ _ _ _).2.2.2.2.2.1
  · exact (drawLandmarks_graph _ _ _ _ _).2.2.2.2.2.2.1
  · rw [(drawLandmarks_graph _ _ _ _ _).2.2.2.2.2.2.2]
    simp only [List.map_map]
    exact List.map_id _
  · rw [(drawLandmarks_graph _ _ _ _ _).2.2.2.2.2.2.2]
    exact circles_radius points _ _ _ _

theorem ready_of_redrawn (g : State) (points : List Point) (env : Env)
    (hactive : g.active = true) (h : Redrawn g points env) : Ready g := by
  obtain ⟨hp, hx, hy, -⟩ := h
  exact ⟨hactive, by rw [hx]; rfl, by rw [hy]; rfl, by rw [hp]; rfl⟩

theorem prepareLandscapeDisplay_configured (g : State) (name : String)
    (hname : g.options.containerName = some name) (hne : name ≠ "") :
    prepareLandscapeDisplay g =
      { graph := { g with calls := g.calls ++ [Call.prepareLandscapeDisplay], active := true,
                          circles := [], labels := [], xScale := some Scale.linear,
                          yScale := some Scale.linear },
        thrown := none } := by
  simp [prepareLandscapeDisplay, hname, hne]

theorem drawLandscape_inactive (g : State) (name : String)
    (hname : g.options.containerName = some name) (hne : name ≠ "")
    (hactive : g.active = false) (pts : List Point) (hp : g.points = some pts) (env : Env) :
    drawLandscape g env =
      redraw { g with calls := g.calls ++ [Call.prepareLandscapeDisplay], active := true,
                      circles := [], labels := [], xScale := some Scale.linear,
                      yScale := some Scale.linear }
        env := by
  unfold drawLandscape
  rw [hp]
  simp only [hactive, Bool.not_false, if_true]
  rw [prepareLandscapeDisplay_configured g name hname hne]
  simp only [hp]

theorem drawLandscape_active (g : State) (hactive : g.active = true) (pts : List Point)
    (hp : g.points = some pts) (env : Env) : drawLandscape g env = redraw g env := by
  unfold drawLandscape
  rw [hp]
  simp only [hactive, Bool.not_true, Bool.false_eq_true, if_false]

theorem setData_inactive (g : State) (name : String)
    (hname : g.options.containerName = some name) (hne : name ≠ "")
    (hactive : g.active = false) (points : List Point) (env : Env) :
    (setData g { points := some points } env).graph.active = true ∧
    (setData g { points := some points } env).graph.options = g.options ∧
    (setData g { points := some points } env).graph.calls =
      g.calls ++ [Call.prepareLandscapeDisplay, Call.redraw] ∧
    Redrawn (setData g { points := some points } env).graph points env := by
  have hdraw : setData g { points := some points } env =
      redraw { g with points := some points, newData := true,
                      calls := g.calls ++ [Call.prepareLandscapeDisplay], active := true,
                      circles := [], labels := [], xScale := some Scale.linear,
                      yScale := some Scale.linear }
        env :=
    drawLandscape_inactive { g with points := some points, newData := true } name hname hne
      hactive points rfl env
  rw [hdraw]
  obtain ⟨h1, h2, h3, h4⟩ := redraw_of_ready
    { g with points := some points, newData := true,
             calls := g.calls ++ [Call.prepareLandscapeDisplay], active := true,
             circles := [], labels := [], xScale := some Scale.linear,
             yScale := some Scale.linear } env points rfl rfl rfl
  refine ⟨h1, h2, ?_, h4⟩
  rw [h3]
  exact List.append_assoc _ _ _

theorem setData_ready (g : State) (hready : Ready g) (points : List Point) (env : Env) :
    (setData g { points := some points } env).graph.active = true ∧
    (setData g { points := some points } env).graph.options = g.options ∧
    (setData g { points := some points } env).graph.calls = g.calls ++ [Call.redraw] ∧
    Redrawn (setData g { points := some points } env).graph points env := by
  obtain ⟨hactive, hx, hy, -⟩ := hready
  have hdraw : setData g { points := some points } env =
      redraw { g with points := some points, newData := true } env :=
    drawLandscape_active { g with points := some points, newData := true } hactive points
      rfl env
  rw [hdraw]
  obtain ⟨h1, h2, h3, h4⟩ :=
    redraw_of_ready { g with points := some points, newData := true } env points rfl hx hy
  exact ⟨h1.trans hactive, h2, h3, h4⟩

theorem resize_ready (g : State) (hready : Ready g) (env : Env) :
    ∃ points, g.points = some points ∧
      (resize g env).graph.active = true ∧
      (resize g env).graph.options = g.options ∧
      (resize g env).graph.calls = g.calls ++ [Call.updateLandscapeDisplay, Call.redraw] ∧
      Redrawn (resize g env).graph points env := by
  obtain ⟨hactive, hx, hy, hp⟩ := hready
  obtain ⟨points, hpoints⟩ := Option.isSome_iff_exists.mp hp
  have hres : resize g env = redraw (updateLandscapeDisplay g) env := by
    unfold resize
    rw [if_pos hactive]
  rw [hres]
  obtain ⟨h1, h2, h3, h4⟩ := redraw_of_ready (updateLandscapeDisplay g) env points hpoints hx hy
  refine ⟨points, hpoints, h1.trans hactive, h2, ?_, h4⟩
  rw [h3]
  exact List.append_assoc _ _ _

theorem step_of_not_assignment (g : State) (hactive : g.active = false) (op : Op)
    (hop : op.isAssignment = false) : (step g op).graph = g := by
  cases op with
  | setData _data env =>
    cases hd : _data.points with
    | none => simp [step, setData, hd]
    | some pts => simp [Op.isAssignment, hd] at hop
  | resize env => simp [step, resize, hactive]

theorem step_ready (g : State) (hready : Ready g) (op : Op) :
    Ready (step g op).graph ∧
    (step g op).graph.options = g.options ∧
    (step g op).graph.calls.count Call.prepareLandscapeDisplay =
      g.calls.count Call.prepareLandscapeDisplay := by
  cases op with
  | setData _data env =>
    obtain ⟨pts⟩ := _data
    cases pts with
    | none => exact ⟨hready, rfl, rfl⟩
    | some pts =>
      obtain ⟨h1, h2, h3, h4⟩ := setData_ready g hready pts env
      exact ⟨ready_of_redrawn _ pts env h1 h4, h2, by simp [step, h3, List.count_append]⟩
  | resize env =>
    obtain ⟨pts, -, h1, h2, h3, h4⟩ := resize_ready g hready env
    exact ⟨ready_of_redrawn _ pts env h1 h4, h2, by simp [step, h3, List.count_append]⟩

theorem exec_ready (g : State) (hready : Ready g) (ops : List Op) :
    Ready (exec g ops) ∧
    (exec g ops).options = g.options ∧
    (exec g ops).calls.count Call.prepareLandscapeDisplay =
      g.calls.count Call.prepareLandscapeDisplay := by
  induction ops generalizing g with
  | nil => exact ⟨hready, rfl, rfl⟩
  | cons op rest ih =>
    obtain ⟨h1, h2, h3⟩ := step_ready g hready op
    obtain ⟨k1, k2, k3⟩ := ih (step g op).graph h1
    simp only [exec, List.foldl_cons] at k1 k2 k3 ⊢
    exact ⟨k1, k2.trans h2, k3.trans h3⟩

theorem exec_inactive (g : State) (name : String)
    (hname : g.options.containerName = some name) (hne : name ≠ "")
    (hactive : g.active = false) (ops : List Op) :
    (exec g ops).active = ops.any Op.isAssignment ∧
    (exec g ops).options = g.options ∧
    (exec g ops).calls.count Call.prepareLandscapeDisplay =
      g.calls.count Call.prepareLandscapeDisplay +
        (if ops.any Op.isAssignment = true then 1 else 0) ∧
    (ops.any Op.isAssignment = true → Ready (exec g ops)) := by
  induction ops generalizing g with
  | nil => simp [exec, hactive]
  | cons op rest ih =>
    cases hop : op.isAssignment with
    | false =>
      have hstep := step_of_not_assignment g hactive op hop
      obtain ⟨k1, k2, k3, k4⟩ := ih g hname hactive
      simp only [exec, List.foldl_cons, hstep, List.any_cons, hop, Bool.false_or]
        at k1 k2 k3 k4 ⊢
      exact ⟨k1, k2, k3, k4⟩
    | true =>
      cases op with
      | resize env => simp [Op.isAssignment] at hop
      | setData _data env =>
        obtain ⟨pts⟩ := _data
        cases pts with
        | none => simp [Op.isAssignment] at hop
        | some pts =>
          obtain ⟨h1, h2, h3, h4⟩ := setData_inactive g name hname hne hactive pts env
          have hready : Ready (step g (Op.setData { points := some pts } env)).graph :=
            ready_of_redrawn _ pts env h1 h4
          obtain ⟨k1, k2, k3⟩ :=
            exec_ready (step g (Op.setData { points := some pts } env)).graph hready rest
          simp only [exec, List.foldl_cons, List.any_cons, hop, Bool.true_or] at k1 k2 k3 ⊢
          refine ⟨k1.1, k2.trans (by simpa [step] using h2), ?_, fun _ => k1⟩
          rw [k3]
          simp [step, h3, List.count_append]

/-- C11: on a graph with a container configured, prepareLandscapeDisplay runs exactly once,
during the first data assignment: over every sequence of operations the graph is active
exactly when a data assignment took place, the surface was constructed once in that case
and never otherwise; the first assignment constructs the surface and redraws, and every
later assignment, like a resize, redraws without constructing the surface again, where a
redraw stores the points, sets the scales from the size of the container and the new
points and joins the circles with the new points. -/
theorem prepareLandscapeDisplay_runs_exactly_once (options : Options) (name : String)
    (hname : options.containerName = some name) (hne : name ≠ "") (ops : List Op) :
    (State.init options).active = false ∧
    (exec (State.init options) ops).active = ops.any Op.isAssignment ∧
    (exec (State.init options) ops).calls.count Call.prepareLandscapeDisplay =
      (if ops.any Op.isAssignment = true then 1 else 0) ∧
    (∀ (points : List Point) (env : Env),
      (ops.any Op.isAssignment = false →
        (exec (State.init options) ops).active = false ∧
        (exec (State.init options) ops).calls.count Call.prepareLandscapeDisplay = 0 ∧
        (setData (exec (State.init options) ops) { points := some points } env).graph.active
          = true ∧
        (setData (exec (State.init options) ops) { points := some points } env).graph.calls
          = (exec (State.init options) ops).calls ++
              [Call.prepareLandscapeDisplay, Call.redraw] ∧
        Redrawn (setData (exec (State.init options) ops) { points := some points } env).graph
          points env) ∧
      (ops.any Op.isAssignment = true →
        (exec (State.init options) ops).active = true ∧
        (setData (exec (State.init options) ops) { points := some points } env).graph.active
          = true ∧
        (setData (exec (State.init options) ops) { points := some points } env).graph.calls
          = (exec (State.init options) ops).calls ++ [Call.redraw] ∧
        Redrawn (setData (exec (State.init options) ops) { points := some points } env).graph
          points env)) ∧
    (∀ env : Env, ops.any Op.isAssignment = true →
      ∃ points, (exec (State.init options) ops).points = some points ∧
        (resize (exec (State.init options) ops) env).graph.active = true ∧
        (resize (exec (State.init options) ops) env).graph.calls
          = (exec (State.init options) ops).calls ++
              [Call.updateLandscapeDisplay, Call.redraw] ∧
        Redrawn (resize (exec (State.init options) ops) env).graph points env) := by
  obtain ⟨hact, hopt, hcount, hready⟩ :=
    exec_inactive (State.init options) name hname hne rfl ops
  have hcount' : (exec (State.init options) ops).calls.count Call.prepareLandscapeDisplay =
      (if ops.any Op.isAssignment = true then 1 else 0) := by
    rw [hcount]
    simp [State.init]
  have hname' : (exec (State.init options) ops).options.containerName = some name := by
    rw [hopt]; exact hname
  refine ⟨rfl, hact, hcount', ?_, ?_⟩
  · intro points env
    constructor
    · intro hany
      have hinactive : (exec (State.init options) ops).active = false := by rw [hact, hany]
      obtain ⟨h1, -, h3, h4⟩ :=
        setData_inactive (exec (State.init options) ops) name hname' hne hinactive points env
      refine ⟨hinactive, ?_, h1, h3, h4⟩
      rw [hcount', hany]
      simp
    · intro hany
      obtain ⟨h1, -, h3, h4⟩ :=
        setData_ready (exec (State.init options) ops) (hready hany) points env
      exact ⟨(hready hany).1, h1, h3, h4⟩
  · intro env hany
    obtain ⟨points, hp, h1, -, h3, h4⟩ :=
      resize_ready (exec (State.init options) ops) (hready hany) env
    exact ⟨points, hp, h1, h3, h4⟩

theorem prepareLandscapeDisplay_runs_exactly_once_witness :
    pageOptions.containerName = some "#landscape-graph-container" ∧
    (exec (State.init pageOptions)
      [Op.setData { points := some fivePoints } squareEnv,
       Op.setData { points := some eightPoints } squareEnv]).active = true ∧
    (exec (State.init pageOptions)
      [Op.setData { points := some fivePoints } squareEnv,
       Op.setData { points := some eightPoints } squareEnv]).calls.count
        Call.prepareLandscapeDisplay = 1 ∧
    Redrawn
      (setData (exec (State.init pageOptions)
        [Op.setData { points := some fivePoints } squareEnv])
        { points := some eightPoints } squareEnv).graph
      eightPoints squareEnv :=
  ⟨rfl,
   (prepareLandscapeDisplay_runs_exactly_once pageOptions "#landscape-graph-container" rfl
      (by decide)
      [Op.setData { points := some fivePoints } squareEnv,
       Op.setData { points := some eightPoints } squareEnv]).2.1,
   (prepareLandscapeDisplay_runs_exactly_once pageOptions "#landscape-graph-container" rfl
      (by decide)
      [Op.setData { points := some fivePoints } squareEnv,
       Op.setData { points := some eightPoints } squareEnv]).2.2.1,
   ((prepareLandscapeDisplay_runs_exactly_once pageOptions "#landscape-graph-container" rfl
      (by decide)
      [Op.setData { points := some fivePoints } squareEnv]).2.2.2.1
      eightPoints squareEnv).2 rfl |>.2.2.2⟩

/-- C12: in every state, setData without points throws at once and leaves the graph as it
was: the stored points and landmarks, the flags active and newData and the record of the
functions run are unchanged, so neither prepareLandscapeDisplay nor redraw is run. -/
theorem setData_without_points_throws (g : State) (env : Env) :
    (setData g { points := none } env).thrown =
      some "landscapeGraph.setLandscapeData: must contain the points data!" ∧
    (setData g { points := none } env).graph = g ∧
    (setData g { points := none } env).graph.points = g.points ∧
    (setData g { points := none } env).graph.landmarks = g.landmarks ∧
    (setData g { points := none } env).graph.active = g.active ∧
    (setData g { points := none } env).graph.newData = g.newData ∧
    (setData g { points := none } env).graph.calls = g.calls :=
  ⟨rfl, rfl, rfl, rfl, rfl, rfl, rfl⟩

/-! ## The two landmark removal passes -/

theorem pixelDistanceBelow_20_25 (xScale yScale : ℚ → ℚ) (d : Landmark) (pt : Point)
    (h : pixelDistanceBelow xScale yScale d pt 20 = true) :
    pixelDistanceBelow xScale yScale d pt 25 = true := by
  simp only [pixelDistanceBelow, decide_eq_true_eq] at h ⊢
  have h20 : ((20 : ℚ)) ^ 2 ≤ (25 : ℚ) ^ 2 := by norm_num
  exact lt_of_lt_of_le h h20

theorem firstPassRemoves_of_secondPassRemoves (xScale yScale : ℚ → ℚ) (points : List Point)
    (d : Landmark) (h : secondPassRemoves xScale yScale points d = true) :
    firstPassRemoves xScale yScale points d = true := by
  simp only [secondPassRemoves, firstPassRemoves, closestPoints, decide_eq_true_eq,
    List.length_eq_zero, List.filter_eq_nil_iff] at h ⊢
  intro pt hpt h20
  exact h pt hpt (pixelDistanceBelow_20_25 xScale yScale d pt h20)

theorem secondPass_textLoop (xScale yScale : ℚ → ℚ) (points : List Point)
    (diceRoll : Nat → Fin 3) (i : Nat) (labels : List Label)
    (hdone : (textLoop xScale yScale points diceRoll i labels).2 = none) :
    secondPass xScale yScale points (textLoop xScale yScale points diceRoll i labels).1 =
      (textLoop xScale yScale points diceRoll i labels).1 := by
  induction labels generalizing i with
  | nil => simp [textLoop, secondPass]
  | cons node rest ih =>
    unfold textLoop at hdone ⊢
    by_cases hfirst : firstPassRemoves xScale yScale points node.landmark = true
    · rw [if_pos hfirst] at hdone ⊢
      have hrest := ih (i + 1) hdone
      simp only [secondPass, List.map_cons] at hrest ⊢
      rw [hrest]
      congr 1
      split <;> rfl
    · rw [if_neg hfirst] at hdone ⊢
      have hsecond : ¬ secondPassRemoves xScale yScale points node.landmark = true :=
        fun h => hfirst (firstPassRemoves_of_secondPassRemoves _ _ _ _ h)
      split at hdone
      · have hrest := ih (i + 1) hdone
        simp only [secondPass, List.map_cons] at hrest ⊢
        rw [hrest, if_neg hsecond]
      · exact absurd hdone (by simp)

/-- C13: the second landmark removal pass of redraw is redundant with the first: a landmark
that the 25 pixel check removes has no point within 20 pixels either, a landmark that the 20
pixel check keeps is kept by the 25 pixel check, and the second pass leaves the labels
exactly as the completed first pass left them. -/
theorem second_landmark_pass_is_redundant (xScale yScale : ℚ → ℚ) (points : List Point) :
    (∀ d : Landmark, secondPassRemoves xScale yScale points d = true →
      firstPassRemoves xScale yScale points d = true) ∧
    (∀ d : Landmark, firstPassRemoves xScale yScale points d = false →
      secondPassRemoves xScale yScale points d = false) ∧
    (∀ (diceRoll : Nat → Fin 3) (labels : List Label),
      (textLoop xScale yScale points diceRoll 0 labels).2 = none →
      secondPass xScale yScale points (textLoop xScale yScale points diceRoll 0 labels).1 =
        (textLoop xScale yScale points diceRoll 0 labels).1) := by
  refine ⟨fun d h => firstPassRemoves_of_secondPassRemoves xScale yScale points d h, ?_,
    fun diceRoll labels h => secondPass_textLoop xScale yScale points diceRoll 0 labels h⟩
  intro d h
  cases hs : secondPassRemoves xScale yScale points d with
  | false => rfl
  | true =>
    rw [firstPassRemoves_of_secondPassRemoves xScale yScale points d hs] at h
    exact absurd h (by decide)

theorem second_landmark_pass_is_redundant_witness :
    secondPassRemoves pixelScale pixelScale [taggedPoint 1 0] { x := 0, y := 0 } = true ∧
    firstPassRemoves pixelScale pixelScale [taggedPoint 1 0] { x := 0, y := 0 } = true :=
  ⟨by norm_num [secondPassRemoves, closestPoints, pixelDistanceBelow, pixelScale, taggedPoint],
   (second_landmark_pass_is_redundant pixelScale pixelScale [taggedPoint 1 0]).1
     { x := 0, y := 0 }
     (by norm_num [secondPassRemoves, closestPoints, pixelDistanceBelow, pixelScale, taggedPoint])⟩
